import Mathlib

/-! IntraFragmentationTest: the connection session, the accept loop and the shutdown path.

A shallow embedding of `src/tcp_connection.go` and `src/main.go`.

The program is effectful: it calls the connection, the clock, the wait group and
the loggers.  Each function is embedded as a pure function from the results the
outside world hands back (an `Env` for a session, a list of accept results for the
accept loop, the results of `net.Listen`, the signal channel, `listener.Close` and
`wg.Wait` for `main`) to the sequence of effects it performs, in program order.

A session loops until a call fails, so `handleTCPConnection` takes a bound `fuel`
on the number of iterations observed and says whether the session has stopped
within it; what is proved for every `fuel` holds of every finite part of an
unbounded session as well.

The goroutines are put together in `System`, `step` and `run`: a step relation on
the shared state (the listener, the counter of the wait group) in which a
schedule picks the goroutine that moves next.
-/

namespace IntraFragmentationTest

/-! ## Values shared by both files -/

/-- One byte, kept as a natural number below 256. -/
abbrev Byte := Nat

/-- Error values, as far as the program can tell them apart: it compares with
`io.EOF`, asks `errors.Is(err, net.ErrClosed)`, and asserts `err.(net.Error)` to
call `Timeout()`. -/
inductive GoError where
  | eof
  | errClosed
  | netError (timeout : Bool)
  | opError (timeout : Bool) (inner : GoError)
  | other (code : Nat)
  deriving DecidableEq, Repr

/-- The type assertion `err.(net.Error)` followed by `Timeout()`: `none` when the
assertion fails, otherwise the value `Timeout()` returns. -/
def GoError.asNetError : GoError → Option Bool
  | .eof => none
  | .errClosed => some false
  | .netError t => some t
  | .opError t _ => some t
  | .other _ => none

/-- The library predicate `errors.Is`: equality with the target somewhere along
the chain of wrapped errors. -/
def errorsIs : GoError → GoError → Bool
  | .opError t inner, target => decide (GoError.opError t inner = target) || errorsIs inner target
  | .eof, target => decide (GoError.eof = target)
  | .errClosed, target => decide (GoError.errClosed = target)
  | .netError t, target => decide (GoError.netError t = target)
  | .other c, target => decide (GoError.other c = target)

/-- Severity of a structured log line (`slog.Info`, `slog.Error`). -/
inductive Level where
  | info
  | error
  deriving DecidableEq, Repr

/-- One attribute of a structured log line (`slog.String`, `slog.Int`, `slog.Any`). -/
inductive Attr where
  | str (key : String) (val : String)
  | int (key : String) (val : Int)
  | any (key : String) (err : GoError)
  deriving DecidableEq, Repr

/-- The effects a session performs, in program order.  The connection constructors
follow the methods of `net.Conn` the program could call. -/
inductive Event where
  | wgAdd (delta : Int)
  | wgDone
  | connRemoteAddr
  | connSetReadDeadline (t : Int) (err : Option GoError)
  | connRead (n : Nat) (err : Option GoError)
  | connWrite (data : List Byte)
  | connClose
  | writeRecord (remoteAddr : String) (data : List Byte)
  | slog (level : Level) (msg : String) (attrs : List Attr)
  deriving DecidableEq, Repr

/-! ## `main.go`: the record logger -/

/-- The table `hextable` of `encoding/hex`. -/
def hextable : List Char := "0123456789abcdef".toList

/-- The library function `hex.EncodeToString`: two digits per byte, high nibble first. -/
def hexEncodeToString (data : List Byte) : String :=
  String.mk ((data.map (fun b => [hextable.getD (b / 16 % 16) '0', hextable.getD (b % 16) '0'])).flatten)

/-- The method `TLSHelloRecordLogger.WriteRecord` (main.go 73-79): the call itself,
then the one log line it writes. -/
def WriteRecord (remoteAddr : String) (data : List Byte) : List Event :=
  [ Event.writeRecord remoteAddr data,
    Event.slog Level.info "Received TLS ClientHello record"
      [ Attr.str "remote_addr" remoteAddr,
        Attr.str "data_hex" (hexEncodeToString data),
        Attr.int "raw_data_len" (data.length : Int) ] ]

/-! ## `tcp_connection.go`: one session -/

/-- What one call of `conn.Read` hands back: the bytes that arrived and the error. -/
structure ReadResult where
  data : List Byte
  err : Option GoError
  deriving DecidableEq, Repr

/-- Everything outside a session that it consults: the peer address, the clock
(`now k` is the value of the k-th call of `time.Now()`), the result of the k-th
`SetReadDeadline` call and the result of the k-th `Read` call. -/
structure Env where
  remoteAddr : String
  now : Nat → Int
  deadline : Nat → Option GoError
  reads : Nat → ReadResult

/-- Length of the buffer allocated by `make([]byte, 4096)`. -/
def bufferSize : Nat := 4096

/-- The call `conn.Read(buffer)`: at most `len(buffer)` bytes are copied to the
front of the buffer, the rest of the buffer keeps what it held; returns `n` and
the buffer afterwards. -/
def connRead (r : ReadResult) (buffer : List Byte) : Nat × List Byte :=
  let n := min r.data.length buffer.length
  (n, r.data.take n ++ buffer.drop n)

/-- How a session stopped, or that it has not stopped within the iterations observed. -/
inductive Exit where
  | running
  | returnedBeforeLoop
  | returnedInLoop
  | brokeOnReadError
  deriving DecidableEq, Repr

/-- The buffer a session starts with: `make([]byte, 4096)` is zero-filled. -/
def initialBuffer : List Byte := List.replicate bufferSize 0

/-- The timeout outcome (tcp_connection.go 39-40). -/
def timeoutLog (remoteAddr : String) : Event :=
  Event.slog Level.info "Read timeout: No further data from client. Closing connection."
    [Attr.str "remote_addr" remoteAddr]

/-- The end-of-stream outcome (tcp_connection.go 42-43). -/
def eofLog (remoteAddr : String) : Event :=
  Event.slog Level.info "Connection closed by client (EOF)." [Attr.str "remote_addr" remoteAddr]

/-- The error outcome (tcp_connection.go 45-47). -/
def readFailureLog (remoteAddr : String) (err : GoError) : Event :=
  Event.slog Level.error "Error reading from client. Closing connection."
    [Attr.str "remote_addr" remoteAddr, Attr.any "error" err]

/-- The three branches of `if err != nil` (tcp_connection.go 37-48). -/
def readErrorLog (remoteAddr : String) (err : GoError) : Event :=
  if err.asNetError = some true then timeoutLog remoteAddr
  else if err = GoError.eof then eofLog remoteAddr
  else readFailureLog remoteAddr err

/-- The failing branch of the `SetReadDeadline` call inside the loop
(tcp_connection.go 27-31), in iteration `k`. -/
def loopDeadlineFailure (env : Env) (readTimeout : Int) (k : Nat) (err : GoError) : List Event :=
  [ Event.connSetReadDeadline (env.now (k + 1) + readTimeout) (some err),
    Event.slog Level.error "Critical: Error setting read deadline. Closing connection."
      [Attr.str "remote_addr" env.remoteAddr, Attr.any "error" err] ]

/-- The `for` loop of `handleTCPConnection` (tcp_connection.go 26-51), from
iteration `k` on with the buffer as it stands, observed for at most `fuel`
iterations. -/
def readLoop (env : Env) (readTimeout : Int) : Nat → Nat → List Byte → List Event × Exit
  | 0, _, _ => ([], Exit.running)
  | fuel + 1, k, buffer =>
    match env.deadline (k + 1) with
    | some err => (loopDeadlineFailure env readTimeout k err, Exit.returnedInLoop)
    | none =>
      let r := env.reads k
      let res := connRead r buffer
      let evs := [ Event.connSetReadDeadline (env.now (k + 1) + readTimeout) none,
                   Event.connRead res.1 r.err ] ++ WriteRecord env.remoteAddr (res.2.take res.1)
      match r.err with
      | some err => (evs ++ [readErrorLog env.remoteAddr err], Exit.brokeOnReadError)
      | none =>
        let rest := readLoop env readTimeout fuel (k + 1) res.2
        (evs ++ rest.1, rest.2)

/-- The line `slog.Info("Closing connection.", ...)` (tcp_connection.go 53). -/
def closingLog (remoteAddr : String) : Event :=
  Event.slog Level.info "Closing connection." [Attr.str "remote_addr" remoteAddr]

/-- The deferred calls, run in reverse order of their `defer` statements:
`conn.Close()` first, then `wg.Done()`. -/
def deferred : List Event := [Event.connClose, Event.wgDone]

/-- What runs before the first `SetReadDeadline` (tcp_connection.go 12-17). -/
def prologue (env : Env) : List Event :=
  [ Event.wgAdd 1, Event.connRemoteAddr,
    Event.slog Level.info "Accepted connection" [Attr.str "remote_addr" env.remoteAddr] ]

/-- The failing branch of the first `SetReadDeadline` call (tcp_connection.go 19-23). -/
def firstDeadlineFailure (env : Env) (readTimeout : Int) (err : GoError) : List Event :=
  [ Event.connSetReadDeadline (env.now 0 + readTimeout) (some err),
    Event.slog Level.error "Error setting read deadline"
      [Attr.str "remote_addr" env.remoteAddr, Attr.any "error" err] ]

/-- What a session does up to the start of the loop when the first
`SetReadDeadline` call succeeds (tcp_connection.go 12-25). -/
def sessionHead (env : Env) (readTimeout : Int) : List Event :=
  prologue env ++ [Event.connSetReadDeadline (env.now 0 + readTimeout) none]

/-- The function `handleTCPConnection` (tcp_connection.go 11-54): the effects of a
session in program order and how it stopped.  With `Exit.running` the trace is
what the session has done in its first `fuel` iterations. -/
def handleTCPConnection (env : Env) (readTimeout : Int) (fuel : Nat) : List Event × Exit :=
  match env.deadline 0 with
  | some err =>
    (prologue env ++ firstDeadlineFailure env readTimeout err ++ deferred,
     Exit.returnedBeforeLoop)
  | none =>
    let loop := readLoop env readTimeout fuel 0 initialBuffer
    let body := sessionHead env readTimeout ++ loop.1
    match loop.2 with
    | Exit.running => (body, Exit.running)
    | Exit.brokeOnReadError => (body ++ [closingLog env.remoteAddr] ++ deferred, Exit.brokeOnReadError)
    | ex => (body ++ deferred, ex)

/-! ## Observations on a trace -/

/-- The arguments of a `WriteRecord` call, for any other effect nothing. -/
def Event.record? : Event → Option (String × List Byte)
  | Event.writeRecord a d => some (a, d)
  | _ => none

/-- The results of a `Read` call, for any other effect nothing. -/
def Event.readCall? : Event → Option (Nat × Option GoError)
  | Event.connRead n e => some (n, e)
  | _ => none

/-- The argument and result of a `SetReadDeadline` call, for any other effect nothing. -/
def Event.deadlineCall? : Event → Option (Int × Option GoError)
  | Event.connSetReadDeadline t e => some (t, e)
  | _ => none

/-- The `WriteRecord` calls of a trace, in order, as (address, payload). -/
def records (tr : List Event) : List (String × List Byte) := tr.filterMap Event.record?

/-- The `Read` calls of a trace, in order, as (n, err). -/
def readCalls (tr : List Event) : List (Nat × Option GoError) := tr.filterMap Event.readCall?

/-- The `SetReadDeadline` calls of a trace, in order, as (deadline, err). -/
def deadlineCalls (tr : List Event) : List (Int × Option GoError) :=
  tr.filterMap Event.deadlineCall?

/-- The bytes a `Read` into a buffer of `bufferSize` bytes returns. -/
def ReadResult.returned (r : ReadResult) : List Byte := r.data.take bufferSize

/-- The effects of one loop iteration whose `SetReadDeadline` succeeds, up to and
including the `WriteRecord` call. -/
def iterEvents (env : Env) (readTimeout : Int) (k : Nat) : List Event :=
  [ Event.connSetReadDeadline (env.now (k + 1) + readTimeout) none,
    Event.connRead (env.reads k).returned.length (env.reads k).err ] ++
  WriteRecord env.remoteAddr (env.reads k).returned

/-- The effects of `m` consecutive iterations from iteration `k` on. -/
def goodIters (env : Env) (readTimeout : Int) : Nat → Nat → List Event
  | _, 0 => []
  | k, m + 1 => iterEvents env readTimeout k ++ goodIters env readTimeout (k + 1) m

/-- A timeout error as the network library reports it. -/
def timeoutErr : GoError := GoError.opError true (GoError.other 0)

/-- The scenario "send AB, then stay silent": one read of two bytes, then a timeout. -/
def envAB : Env :=
  { remoteAddr := "198.51.100.7:4242"
    now := fun k => 1000 * k
    deadline := fun _ => none
    reads := fun k => if k = 0 then ⟨[0x41, 0x42], none⟩ else ⟨[], some timeoutErr⟩ }

/-- The scenario "send X, send Y, close": two reads of one byte, then end of stream. -/
def envXY : Env :=
  { remoteAddr := "198.51.100.7:4242"
    now := fun k => 1000 * k
    deadline := fun _ => none
    reads := fun k =>
      if k = 0 then ⟨[0x58], none⟩ else if k = 1 then ⟨[0x59], none⟩ else ⟨[], some GoError.eof⟩ }

/-- Whether an effect is a `Read` call on the connection. -/
def Event.isRead : Event → Bool
  | Event.connRead _ _ => true
  | _ => false

/-- What holds between two consecutive effects `a`, `b` of a session: a `Read` comes
right after a `SetReadDeadline` that succeeded, and right after a `Read` of `n`
bytes comes the `WriteRecord` call for the peer address with a payload of `n` bytes. -/
def Adjacent (env : Env) (a b : Event) : Prop :=
  (b.isRead = true → ∃ t, a = Event.connSetReadDeadline t none) ∧
  (∀ n e, a = Event.connRead n e →
    ∃ d, b = Event.writeRecord env.remoteAddr d ∧ d.length = n)

/-- Whether an effect is a `SetReadDeadline` call that returned an error. -/
def Event.isFailedDeadline : Event → Bool
  | Event.connSetReadDeadline _ (some _) => true
  | _ => false

/-- Whether an effect belongs to the life cycle of a session: its registration
with the wait group, the close of its connection, its deregistration. -/
def Event.isLifecycle : Event → Bool
  | Event.wgAdd _ => true
  | Event.wgDone => true
  | Event.connClose => true
  | _ => false

/-- Whether one of the calls a session makes within its first `fuel` iterations
fails: the first `SetReadDeadline`, or in some iteration the `SetReadDeadline` or
the `Read`. -/
def failsWithin (env : Env) (fuel : Nat) : Bool :=
  (env.deadline 0).isSome ||
    (List.range fuel).any (fun k => (env.deadline (k + 1)).isSome || (env.reads k).err.isSome)

/-- Whether an effect is one of the three outcome lines a read error is logged with. -/
def Event.isOutcome : Event → Bool
  | Event.slog _ msg _ =>
    msg == "Read timeout: No further data from client. Closing connection." ||
    msg == "Connection closed by client (EOF)." ||
    msg == "Error reading from client. Closing connection."
  | _ => false

/-- A session whose first `SetReadDeadline` call fails. -/
def envNoDeadline : Env :=
  { remoteAddr := "198.51.100.7:4242"
    now := fun k => 1000 * k
    deadline := fun _ => some (GoError.other 9)
    reads := fun _ => ⟨[], some GoError.eof⟩ }

/-! ## `main.go`: the accept loop and the shutdown path -/

/-- What one call of `listener.Accept` hands back: a connection, named by a
number, or an error. -/
inductive AcceptResult where
  | conn (c : Nat)
  | fail (err : GoError)
  deriving DecidableEq, Repr

/-- The effects of `main` and of the accept-loop goroutine, in program order. -/
inductive MainEvent where
  | listen (addr : String) (err : Option GoError)
  | listenerAddr
  | signalNotify
  | goAcceptLoop
  | recvSignal (sig : String)
  | listenerClose (err : Option GoError)
  | wgWait
  | osExit (code : Nat)
  | accept (r : AcceptResult)
  | goSession (c : Nat)
  | slog (level : Level) (msg : String) (attrs : List Attr)
  deriving DecidableEq, Repr

/-- The test `errors.Is(err, net.ErrClosed)` on the result of an `Accept` call. -/
def AcceptResult.isClosed : AcceptResult → Bool
  | AcceptResult.fail err => errorsIs err GoError.errClosed
  | AcceptResult.conn _ => false

/-- The `for` loop of the accept goroutine (main.go 40-52) run against the results
the successive `Accept` calls return; the flag tells whether the loop has
returned (otherwise it is blocked in the next `Accept`). -/
def acceptIterations : List AcceptResult → List MainEvent × Bool
  | [] => ([], false)
  | AcceptResult.fail err :: rest =>
    if errorsIs err GoError.errClosed then
      ([ MainEvent.accept (AcceptResult.fail err),
         MainEvent.slog Level.info "Listener closed, accept loop terminating." [] ], true)
    else
      let r := acceptIterations rest
      (MainEvent.accept (AcceptResult.fail err) ::
         MainEvent.slog Level.error "Error accepting connection" [Attr.any "error" err] :: r.1,
       r.2)
  | AcceptResult.conn c :: rest =>
    let r := acceptIterations rest
    (MainEvent.accept (AcceptResult.conn c) :: MainEvent.goSession c :: r.1, r.2)

/-- The accept goroutine (main.go 38-53). -/
def acceptLoop (results : List AcceptResult) : List MainEvent × Bool :=
  (MainEvent.slog Level.info "Accept loop started. Waiting for connections..." [] ::
     (acceptIterations results).1,
   (acceptIterations results).2)

/-- The sessions a trace spawns, in order. -/
def spawned (tr : List MainEvent) : List Nat :=
  tr.filterMap (fun ev => match ev with
    | MainEvent.goSession c => some c
    | _ => none)

/-- The results of the `Accept` calls of a trace, in order. -/
def acceptCalls (tr : List MainEvent) : List AcceptResult :=
  tr.filterMap (fun ev => match ev with
    | MainEvent.accept r => some r
    | _ => none)

/-- The results of the `listener.Close` calls of a trace, in order. -/
def closeCalls (tr : List MainEvent) : List (Option GoError) :=
  tr.filterMap (fun ev => match ev with
    | MainEvent.listenerClose e => some e
    | _ => none)

/-- The connection of a successful `Accept`, for a failure nothing. -/
def AcceptResult.conn? : AcceptResult → Option Nat
  | AcceptResult.conn c => some c
  | AcceptResult.fail _ => none

/-- Where the control path of `main` stands. -/
inductive MainOutcome where
  | exited (code : Nat)
  | awaitingSignal
  | awaitingDrain
  | returned
  deriving DecidableEq, Repr

/-- What `main` does once the listener exists, up to the receive on the signal
channel (main.go 28-53); the `defer listener.Close()` of line 28 runs at return. -/
def mainStartup (listenAddr boundAddr : String) : List MainEvent :=
  [ MainEvent.listen listenAddr none, MainEvent.listenerAddr,
    MainEvent.slog Level.info "TCP listener started" [Attr.str "address" boundAddr],
    MainEvent.signalNotify, MainEvent.goAcceptLoop ]

/-- What `main` does from the signal to the wait (main.go 56-65). -/
def mainShutdown (sig : String) (closeErr : Option GoError) : List MainEvent :=
  [ MainEvent.recvSignal sig,
    MainEvent.slog Level.info "Received signal, initiating graceful shutdown..."
      [Attr.str "signal" sig],
    MainEvent.slog Level.info "Closing listener to stop accepting new connections..." [],
    MainEvent.listenerClose closeErr ] ++
  (match closeErr with
    | some err => [MainEvent.slog Level.error "Error closing listener" [Attr.any "error" err]]
    | none => []) ++
  [ MainEvent.slog Level.info "Waiting for active connections to finish..." [],
    MainEvent.wgWait ]

/-- The control path of `main` (main.go 16-68): `listenErr` is the result of
`net.Listen`, `boundAddr` what `listener.Addr()` prints, `sig` the signal received
if one arrives, `closeErr` the result of the `listener.Close()` of line 60,
`drained` whether `wg.Wait()` returns, and `deferredErr` the result of the deferred
`listener.Close()`. -/
def main (listenAddr boundAddr : String) (listenErr : Option GoError) (sig : Option String)
    (closeErr : Option GoError) (drained : Bool) (deferredErr : Option GoError) :
    List MainEvent × MainOutcome :=
  match listenErr with
  | some err =>
    ([ MainEvent.listen listenAddr (some err),
       MainEvent.slog Level.error "Failed to start TCP listener"
         [Attr.str "address" listenAddr, Attr.any "error" err],
       MainEvent.osExit 1 ],
     MainOutcome.exited 1)
  | none =>
    match sig with
    | none => (mainStartup listenAddr boundAddr, MainOutcome.awaitingSignal)
    | some s =>
      if drained then
        (mainStartup listenAddr boundAddr ++ mainShutdown s closeErr ++
           [ MainEvent.slog Level.info "All connections finished. Shutdown complete." [],
             MainEvent.listenerClose deferredErr ],
         MainOutcome.returned)
      else (mainStartup listenAddr boundAddr ++ mainShutdown s closeErr,
        MainOutcome.awaitingDrain)

/-! ## The goroutines together -/

/-- Where `main` stands between the receive on the signal channel and its return. -/
inductive MainPc where
  | awaitSignal
  | closeListener
  | wait
  | deferredClose
  | returned
  deriving DecidableEq, Repr

/-- The state the goroutines share, and where each of them stands: whether the
listener is closed, the counter of the wait group, the place of `main`, whether
the accept loop has returned, the results the coming `Accept` calls will return
while the listener is open, and for each spawned session the effects it has still
to perform. -/
structure System where
  listenerClosed : Bool
  wg : Int
  main : MainPc
  acceptorDone : Bool
  backlog : List AcceptResult
  sessions : List (List Event)
  deriving DecidableEq, Repr

/-- The goroutine that takes the next step. -/
inductive Thread where
  | main
  | acceptor
  | session (i : Nat)
  deriving DecidableEq, Repr

/-- The change an effect of a session makes to the counter of the wait group. -/
def wgDelta : Event → Int
  | Event.wgAdd d => d
  | Event.wgDone => -1
  | _ => 0

/-- One step of one goroutine, `none` when it is blocked or has finished.  Once
`main` has returned the process is over and nothing runs.  `main` (main.go 56-68):
receive the signal, close the listener, return from `wg.Wait()` when the counter
is zero, run the deferred close and return.  The accept loop (main.go 40-52): a
closed listener makes `Accept` fail with `net.ErrClosed`, otherwise the next result
of the backlog is handled, a connection being handed to a new session goroutine
that has performed nothing yet.  A session performs its next effect. -/
def step (script : Nat → Env) (readTimeout : Int) (fuel : Nat) (s : System) :
    Thread → Option System
  | Thread.main =>
    match s.main with
    | MainPc.awaitSignal => some { s with main := MainPc.closeListener }
    | MainPc.closeListener => some { s with listenerClosed := true, main := MainPc.wait }
    | MainPc.wait => if s.wg = 0 then some { s with main := MainPc.deferredClose } else none
    | MainPc.deferredClose => some { s with main := MainPc.returned }
    | MainPc.returned => none
  | Thread.acceptor =>
    if s.main = MainPc.returned ∨ s.acceptorDone = true then none
    else if s.listenerClosed = true then some { s with acceptorDone := true }
    else
      match s.backlog with
      | [] => none
      | AcceptResult.fail err :: rest =>
        if errorsIs err GoError.errClosed then some { s with acceptorDone := true, backlog := rest }
        else some { s with backlog := rest }
      | AcceptResult.conn c :: rest =>
        some { s with
          backlog := rest
          sessions := s.sessions ++ [(handleTCPConnection (script c) readTimeout fuel).1] }
  | Thread.session i =>
    if s.main = MainPc.returned then none
    else
      match s.sessions[i]? with
      | some (ev :: rest) =>
        some { s with wg := s.wg + wgDelta ev, sessions := s.sessions.set i rest }
      | _ => none

/-- The steps of a schedule one after the other, `none` if one of them cannot be taken. -/
def run (script : Nat → Env) (readTimeout : Int) (fuel : Nat) :
    System → List Thread → Option System
  | s, [] => some s
  | s, t :: rest =>
    match step script readTimeout fuel s t with
    | some s' => run script readTimeout fuel s' rest
    | none => none

/-- The state right after `main` has started the accept loop: listener open,
counter zero, no session yet. -/
def startState (backlog : List AcceptResult) : System :=
  { listenerClosed := false, wg := 0, main := MainPc.awaitSignal, acceptorDone := false,
    backlog := backlog, sessions := [] }

/-! ## Lemmas on `connRead` and the loop -/

theorem connRead_fst (r : ReadResult) (buffer : List Byte) (h : buffer.length = bufferSize) :
    (connRead r buffer).1 = r.returned.length := by
  simp [connRead, ReadResult.returned, h, Nat.min_comm]

theorem connRead_length (r : ReadResult) (buffer : List Byte) :
    (connRead r buffer).2.length = buffer.length := by
  simp only [connRead, List.length_append, List.length_take, List.length_drop]
  omega

theorem connRead_payload (r : ReadResult) (buffer : List Byte) (h : buffer.length = bufferSize) :
    (connRead r buffer).2.take r.returned.length = r.returned := by
  have hlen : r.returned.length = min r.data.length buffer.length := by
    simp [ReadResult.returned, h, Nat.min_comm]
  have hret : r.returned = r.data.take (min r.data.length buffer.length) := by
    simp only [ReadResult.returned, h]
    rw [List.take_eq_take]
    simp [Nat.min_comm, Nat.min_assoc]
  simp only [connRead]
  rw [hlen, List.take_append_of_le_length (by simp), List.take_take, Nat.min_self, ← hret]

/-- One unfolding of the loop, for a buffer of the right length: the events no
longer mention the buffer. -/
theorem readLoop_succ (env : Env) (readTimeout : Int) (fuel k : Nat) (buffer : List Byte)
    (h : buffer.length = bufferSize) :
    readLoop env readTimeout (fuel + 1) k buffer =
      match env.deadline (k + 1) with
      | some err => (loopDeadlineFailure env readTimeout k err, Exit.returnedInLoop)
      | none =>
        match (env.reads k).err with
        | some err =>
          (iterEvents env readTimeout k ++ [readErrorLog env.remoteAddr err],
           Exit.brokeOnReadError)
        | none =>
          (iterEvents env readTimeout k ++
             (readLoop env readTimeout fuel (k + 1) (connRead (env.reads k) buffer).2).1,
           (readLoop env readTimeout fuel (k + 1) (connRead (env.reads k) buffer).2).2) := by
  rw [readLoop]
  cases hd : env.deadline (k + 1) with
  | some err => rfl
  | none =>
    simp only [connRead_fst _ _ h, connRead_payload _ _ h, iterEvents]

/-- The contents of the buffer do not influence the trace, only its length does. -/
theorem readLoop_buffer (env : Env) (readTimeout : Int) :
    ∀ (fuel k : Nat) (b₁ b₂ : List Byte), b₁.length = bufferSize → b₂.length = bufferSize →
      readLoop env readTimeout fuel k b₁ = readLoop env readTimeout fuel k b₂ := by
  intro fuel
  induction fuel with
  | zero => intro k b₁ b₂ _ _; rfl
  | succ fuel ih =>
    intro k b₁ b₂ h₁ h₂
    rw [readLoop_succ _ _ _ _ _ h₁, readLoop_succ _ _ _ _ _ h₂]
    rw [ih (k + 1) (connRead (env.reads k) b₁).2 (connRead (env.reads k) b₂).2
      (by rw [connRead_length, h₁]) (by rw [connRead_length, h₂])]

theorem initialBuffer_length : initialBuffer.length = bufferSize := by
  simp [initialBuffer]

/-- One unfolding of the loop started on the initial buffer. -/
theorem readLoop_init_succ (env : Env) (readTimeout : Int) (fuel k : Nat) :
    readLoop env readTimeout (fuel + 1) k initialBuffer =
      match env.deadline (k + 1) with
      | some err => (loopDeadlineFailure env readTimeout k err, Exit.returnedInLoop)
      | none =>
        match (env.reads k).err with
        | some err =>
          (iterEvents env readTimeout k ++ [readErrorLog env.remoteAddr err],
           Exit.brokeOnReadError)
        | none =>
          (iterEvents env readTimeout k ++
             (readLoop env readTimeout fuel (k + 1) initialBuffer).1,
           (readLoop env readTimeout fuel (k + 1) initialBuffer).2) := by
  rw [readLoop_succ _ _ _ _ _ initialBuffer_length]
  rw [readLoop_buffer env readTimeout fuel (k + 1) (connRead (env.reads k) initialBuffer).2
    initialBuffer (by rw [connRead_length, initialBuffer_length]) initialBuffer_length]

/-! ## The shape of a trace -/

theorem records_append (a b : List Event) : records (a ++ b) = records a ++ records b := by
  simp [records]

theorem readCalls_append (a b : List Event) : readCalls (a ++ b) = readCalls a ++ readCalls b := by
  simp [readCalls]

theorem deadlineCalls_append (a b : List Event) :
    deadlineCalls (a ++ b) = deadlineCalls a ++ deadlineCalls b := by
  simp [deadlineCalls]

theorem records_iterEvents (env : Env) (readTimeout : Int) (k : Nat) :
    records (iterEvents env readTimeout k) = [(env.remoteAddr, (env.reads k).returned)] := by
  simp [records, iterEvents, WriteRecord, Event.record?]

theorem readCalls_iterEvents (env : Env) (readTimeout : Int) (k : Nat) :
    readCalls (iterEvents env readTimeout k) =
      [((env.reads k).returned.length, (env.reads k).err)] := by
  simp [readCalls, iterEvents, WriteRecord, Event.readCall?]

theorem deadlineCalls_iterEvents (env : Env) (readTimeout : Int) (k : Nat) :
    deadlineCalls (iterEvents env readTimeout k) = [(env.now (k + 1) + readTimeout, none)] := by
  simp [deadlineCalls, iterEvents, WriteRecord, Event.deadlineCall?]

theorem range_map_shift {α : Type} (f : Nat → α) (k m : Nat) :
    f k :: (List.range m).map (fun i => f (k + 1 + i)) =
      (List.range (m + 1)).map (fun i => f (k + i)) := by
  rw [List.range_succ_eq_map, List.map_cons, List.map_map]
  congr 1
  apply List.map_congr_left
  intro i _
  show f (k + 1 + i) = f (k + (i + 1))
  congr 1
  omega

theorem records_goodIters (env : Env) (readTimeout : Int) :
    ∀ (m k : Nat), records (goodIters env readTimeout k m) =
      (List.range m).map (fun i => (env.remoteAddr, (env.reads (k + i)).returned)) := by
  intro m
  induction m with
  | zero => intro k; rfl
  | succ m ih =>
    intro k
    rw [goodIters, records_append, records_iterEvents, ih (k + 1)]
    exact range_map_shift (fun j => (env.remoteAddr, (env.reads j).returned)) k m

theorem readCalls_goodIters (env : Env) (readTimeout : Int) :
    ∀ (m k : Nat), readCalls (goodIters env readTimeout k m) =
      (List.range m).map
        (fun i => ((env.reads (k + i)).returned.length, (env.reads (k + i)).err)) := by
  intro m
  induction m with
  | zero => intro k; rfl
  | succ m ih =>
    intro k
    rw [goodIters, readCalls_append, readCalls_iterEvents, ih (k + 1)]
    exact range_map_shift (fun j => ((env.reads j).returned.length, (env.reads j).err)) k m

theorem deadlineCalls_goodIters (env : Env) (readTimeout : Int) :
    ∀ (m k : Nat), deadlineCalls (goodIters env readTimeout k m) =
      (List.range m).map (fun i => (env.now (k + i + 1) + readTimeout, none)) := by
  intro m
  induction m with
  | zero => intro k; rfl
  | succ m ih =>
    intro k
    rw [goodIters, deadlineCalls_append, deadlineCalls_iterEvents, ih (k + 1)]
    exact range_map_shift
      (fun j => (env.now (j + 1) + readTimeout, (none : Option GoError))) k m

/-- The loop runs some number `m` of iterations that neither fail nor end it, and
then is still running, or returns on a failed `SetReadDeadline`, or breaks on a
read error. -/
theorem readLoop_shape (env : Env) (readTimeout : Int) :
    ∀ (fuel k : Nat), ∃ m, m ≤ fuel ∧
      (∀ i, i < m → env.deadline (k + i + 1) = none ∧ (env.reads (k + i)).err = none) ∧
      ((m = fuel ∧ readLoop env readTimeout fuel k initialBuffer =
          (goodIters env readTimeout k m, Exit.running)) ∨
       (m < fuel ∧ ∃ err, env.deadline (k + m + 1) = some err ∧
          readLoop env readTimeout fuel k initialBuffer =
            (goodIters env readTimeout k m ++ loopDeadlineFailure env readTimeout (k + m) err,
             Exit.returnedInLoop)) ∨
       (m < fuel ∧ env.deadline (k + m + 1) = none ∧ ∃ e, (env.reads (k + m)).err = some e ∧
          readLoop env readTimeout fuel k initialBuffer =
            (goodIters env readTimeout k m ++
               (iterEvents env readTimeout (k + m) ++ [readErrorLog env.remoteAddr e]),
             Exit.brokeOnReadError))) := by
  intro fuel
  induction fuel with
  | zero =>
    intro k
    exact ⟨0, le_refl 0, fun i hi => absurd hi (Nat.not_lt_zero i), Or.inl ⟨rfl, rfl⟩⟩
  | succ fuel ih =>
    intro k
    rw [readLoop_init_succ]
    cases hd : env.deadline (k + 1) with
    | some err =>
      refine ⟨0, Nat.zero_le _, fun i hi => absurd hi (Nat.not_lt_zero i), Or.inr (Or.inl ?_)⟩
      exact ⟨Nat.succ_pos fuel, err, hd, rfl⟩
    | none =>
      cases he : (env.reads k).err with
      | some e =>
        refine ⟨0, Nat.zero_le _, fun i hi => absurd hi (Nat.not_lt_zero i), Or.inr (Or.inr ?_)⟩
        exact ⟨Nat.succ_pos fuel, hd, e, he, rfl⟩
      | none =>
        obtain ⟨m, hm, hgood, hcase⟩ := ih (k + 1)
        have hk : ∀ j, k + 1 + j = k + (j + 1) := fun j => by omega
        refine ⟨m + 1, Nat.succ_le_succ hm, ?_, ?_⟩
        · intro i hi
          cases i with
          | zero => exact ⟨hd, he⟩
          | succ i =>
            have := hgood i (Nat.lt_of_succ_lt_succ hi)
            rwa [hk] at this
        · rcases hcase with ⟨h1, h2⟩ | ⟨h1, err, h2, h3⟩ | ⟨h1, h2, e, h3, h4⟩
          · left
            exact ⟨by rw [h1], by simp only [h2, goodIters]⟩
          · right; left
            refine ⟨Nat.succ_lt_succ h1, err, by rwa [hk] at h2, ?_⟩
            simp only [h3, goodIters, List.append_assoc, hk]
          · right; right
            refine ⟨Nat.succ_lt_succ h1, by rwa [hk] at h2, e, by rwa [hk] at h3, ?_⟩
            simp only [h4, goodIters, List.append_assoc, hk]

/-- The three ways a session can end, and the case that it has not ended yet. -/
theorem session_shape (env : Env) (readTimeout : Int) (fuel : Nat) :
    (∃ err, env.deadline 0 = some err ∧
      handleTCPConnection env readTimeout fuel =
        (prologue env ++ firstDeadlineFailure env readTimeout err ++ deferred,
         Exit.returnedBeforeLoop)) ∨
    (env.deadline 0 = none ∧ ∃ m, m ≤ fuel ∧
      (∀ i, i < m → env.deadline (i + 1) = none ∧ (env.reads i).err = none) ∧
      ((m = fuel ∧ handleTCPConnection env readTimeout fuel =
          (sessionHead env readTimeout ++ goodIters env readTimeout 0 m, Exit.running)) ∨
       (m < fuel ∧ ∃ err, env.deadline (m + 1) = some err ∧
          handleTCPConnection env readTimeout fuel =
            (sessionHead env readTimeout ++ goodIters env readTimeout 0 m ++
               loopDeadlineFailure env readTimeout m err ++ deferred,
             Exit.returnedInLoop)) ∨
       (m < fuel ∧ env.deadline (m + 1) = none ∧ ∃ e, (env.reads m).err = some e ∧
          handleTCPConnection env readTimeout fuel =
            (sessionHead env readTimeout ++ goodIters env readTimeout 0 m ++
               iterEvents env readTimeout m ++
               [readErrorLog env.remoteAddr e, closingLog env.remoteAddr] ++ deferred,
             Exit.brokeOnReadError)))) := by
  cases hd : env.deadline 0 with
  | some err =>
    left
    exact ⟨err, rfl, by simp only [handleTCPConnection, hd]⟩
  | none =>
    right
    refine ⟨rfl, ?_⟩
    obtain ⟨m, hm, hgood, hcase⟩ := readLoop_shape env readTimeout fuel 0
    simp only [Nat.zero_add] at hgood hcase
    refine ⟨m, hm, hgood, ?_⟩
    rcases hcase with ⟨h1, h2⟩ | ⟨h1, err, h2, h3⟩ | ⟨h1, h2, e, h3, h4⟩
    · left
      exact ⟨h1, by simp only [handleTCPConnection, hd, h2]⟩
    · right; left
      exact ⟨h1, err, h2, by simp only [handleTCPConnection, hd, h3, List.append_assoc]⟩
    · right; right
      refine ⟨h1, h2, e, h3, ?_⟩
      simp only [handleTCPConnection, hd, h4, List.append_assoc, List.cons_append,
        List.nil_append]

/-! ## Projections of the pieces of a trace -/

theorem record?_readErrorLog (a : String) (e : GoError) :
    (readErrorLog a e).record? = none := by
  unfold readErrorLog
  split_ifs <;> rfl

theorem readCall?_readErrorLog (a : String) (e : GoError) :
    (readErrorLog a e).readCall? = none := by
  unfold readErrorLog
  split_ifs <;> rfl

theorem deadlineCall?_readErrorLog (a : String) (e : GoError) :
    (readErrorLog a e).deadlineCall? = none := by
  unfold readErrorLog
  split_ifs <;> rfl

theorem records_sessionHead (env : Env) (t : Int) : records (sessionHead env t) = [] := by
  simp [records, sessionHead, prologue, Event.record?]

theorem records_prologue (env : Env) : records (prologue env) = [] := by
  simp [records, prologue, Event.record?]

theorem records_firstDeadlineFailure (env : Env) (t : Int) (e : GoError) :
    records (firstDeadlineFailure env t e) = [] := by
  simp [records, firstDeadlineFailure, Event.record?]

theorem records_loopDeadlineFailure (env : Env) (t : Int) (k : Nat) (e : GoError) :
    records (loopDeadlineFailure env t k e) = [] := by
  simp [records, loopDeadlineFailure, Event.record?]

theorem records_deferred : records deferred = [] := by
  simp [records, deferred, Event.record?]

theorem records_epilogue (a : String) (e : GoError) :
    records [readErrorLog a e, closingLog a] = [] := by
  rw [records, List.filterMap_cons, record?_readErrorLog]
  rfl

theorem readCalls_sessionHead (env : Env) (t : Int) : readCalls (sessionHead env t) = [] := by
  simp [readCalls, sessionHead, prologue, Event.readCall?]

theorem readCalls_prologue (env : Env) : readCalls (prologue env) = [] := by
  simp [readCalls, prologue, Event.readCall?]

theorem readCalls_firstDeadlineFailure (env : Env) (t : Int) (e : GoError) :
    readCalls (firstDeadlineFailure env t e) = [] := by
  simp [readCalls, firstDeadlineFailure, Event.readCall?]

theorem readCalls_loopDeadlineFailure (env : Env) (t : Int) (k : Nat) (e : GoError) :
    readCalls (loopDeadlineFailure env t k e) = [] := by
  simp [readCalls, loopDeadlineFailure, Event.readCall?]

theorem readCalls_deferred : readCalls deferred = [] := by
  simp [readCalls, deferred, Event.readCall?]

theorem readCalls_epilogue (a : String) (e : GoError) :
    readCalls [readErrorLog a e, closingLog a] = [] := by
  rw [readCalls, List.filterMap_cons, readCall?_readErrorLog]
  rfl

theorem deadlineCalls_sessionHead (env : Env) (t : Int) :
    deadlineCalls (sessionHead env t) = [(env.now 0 + t, none)] := by
  simp [deadlineCalls, sessionHead, prologue, Event.deadlineCall?]

theorem deadlineCalls_prologue (env : Env) : deadlineCalls (prologue env) = [] := by
  simp [deadlineCalls, prologue, Event.deadlineCall?]

theorem deadlineCalls_firstDeadlineFailure (env : Env) (t : Int) (e : GoError) :
    deadlineCalls (firstDeadlineFailure env t e) = [(env.now 0 + t, some e)] := by
  simp [deadlineCalls, firstDeadlineFailure, Event.deadlineCall?]

theorem deadlineCalls_loopDeadlineFailure (env : Env) (t : Int) (k : Nat) (e : GoError) :
    deadlineCalls (loopDeadlineFailure env t k e) = [(env.now (k + 1) + t, some e)] := by
  simp [deadlineCalls, loopDeadlineFailure, Event.deadlineCall?]

theorem deadlineCalls_deferred : deadlineCalls deferred = [] := by
  simp [deadlineCalls, deferred, Event.deadlineCall?]

theorem deadlineCalls_epilogue (a : String) (e : GoError) :
    deadlineCalls [readErrorLog a e, closingLog a] = [] := by
  rw [deadlineCalls, List.filterMap_cons, deadlineCall?_readErrorLog]
  rfl

/-- The `Read` calls of a session are the first calls the environment answers, in order. -/
theorem readCalls_session (env : Env) (readTimeout : Int) (fuel : Nat) :
    readCalls (handleTCPConnection env readTimeout fuel).1 =
      (List.range (readCalls (handleTCPConnection env readTimeout fuel).1).length).map
        (fun j => ((env.reads j).returned.length, (env.reads j).err)) := by
  rcases session_shape env readTimeout fuel with
    ⟨err, _, h⟩ | ⟨_, m, _, _, ⟨_, h⟩ | ⟨_, err, _, h⟩ | ⟨_, _, e, _, h⟩⟩
  · simp [h, readCalls_append, readCalls_prologue, readCalls_firstDeadlineFailure,
      readCalls_deferred]
  · simp [h, readCalls_append, readCalls_sessionHead, readCalls_goodIters]
  · simp [h, readCalls_append, readCalls_sessionHead, readCalls_goodIters,
      readCalls_loopDeadlineFailure, readCalls_deferred]
  · simp only [h, readCalls_append, readCalls_sessionHead, readCalls_goodIters,
      readCalls_iterEvents, readCalls_epilogue, readCalls_deferred, List.nil_append,
      List.append_nil, Nat.zero_add, List.length_append, List.length_map, List.length_range,
      List.length_singleton]
    rw [List.range_succ, List.map_append]
    rfl

/-- The `WriteRecord` calls of a session carry, in order, the peer address and the
bytes each `Read` call returned. -/
theorem records_session (env : Env) (readTimeout : Int) (fuel : Nat) :
    records (handleTCPConnection env readTimeout fuel).1 =
      (List.range (readCalls (handleTCPConnection env readTimeout fuel).1).length).map
        (fun j => (env.remoteAddr, (env.reads j).returned)) := by
  rcases session_shape env readTimeout fuel with
    ⟨err, _, h⟩ | ⟨_, m, _, _, ⟨_, h⟩ | ⟨_, err, _, h⟩ | ⟨_, _, e, _, h⟩⟩
  · simp [h, readCalls_append, readCalls_prologue, readCalls_firstDeadlineFailure,
      readCalls_deferred, records_append, records_prologue, records_firstDeadlineFailure,
      records_deferred]
  · simp [h, readCalls_append, readCalls_sessionHead, readCalls_goodIters,
      records_append, records_sessionHead, records_goodIters]
  · simp [h, readCalls_append, readCalls_sessionHead, readCalls_goodIters,
      readCalls_loopDeadlineFailure, readCalls_deferred, records_append, records_sessionHead,
      records_goodIters, records_loopDeadlineFailure, records_deferred]
  · simp only [h, readCalls_append, readCalls_sessionHead, readCalls_goodIters,
      readCalls_iterEvents, readCalls_epilogue, readCalls_deferred, List.nil_append,
      List.append_nil, Nat.zero_add, List.length_append, List.length_map, List.length_range,
      List.length_singleton, records_append, records_sessionHead, records_goodIters,
      records_iterEvents, records_epilogue, records_deferred]
    rw [List.range_succ, List.map_append]
    rfl

/-! ## Every effect of a session, and what follows what -/

theorem goodIters_succ_right (env : Env) (t : Int) :
    ∀ (m k : Nat), goodIters env t k (m + 1) = goodIters env t k m ++ iterEvents env t (k + m) := by
  intro m
  induction m with
  | zero => intro k; simp [goodIters]
  | succ m ih =>
    intro k
    rw [goodIters, ih (k + 1), goodIters, List.append_assoc]
    congr 3
    omega

theorem forall_goodIters (env : Env) (t : Int) (P : Event → Prop)
    (h : ∀ k ev, ev ∈ iterEvents env t k → P ev) :
    ∀ (m k : Nat) (ev : Event), ev ∈ goodIters env t k m → P ev := by
  intro m
  induction m with
  | zero => intro k ev hev; simp [goodIters] at hev
  | succ m ih =>
    intro k ev hev
    rw [goodIters, List.mem_append] at hev
    rcases hev with hev | hev
    · exact h k ev hev
    · exact ih (k + 1) ev hev

theorem readErrorLog_slog (a : String) (e : GoError) :
    ∃ l msg attrs, readErrorLog a e = Event.slog l msg attrs := by
  unfold readErrorLog timeoutLog eofLog readFailureLog
  split_ifs
  · exact ⟨_, _, _, rfl⟩
  · exact ⟨_, _, _, rfl⟩
  · exact ⟨_, _, _, rfl⟩

theorem isRead_readErrorLog (a : String) (e : GoError) : (readErrorLog a e).isRead = false := by
  obtain ⟨l, msg, attrs, h⟩ := readErrorLog_slog a e
  rw [h]
  rfl

theorem isFailedDeadline_readErrorLog (a : String) (e : GoError) :
    (readErrorLog a e).isFailedDeadline = false := by
  obtain ⟨l, msg, attrs, h⟩ := readErrorLog_slog a e
  rw [h]
  rfl

theorem isLifecycle_readErrorLog (a : String) (e : GoError) :
    (readErrorLog a e).isLifecycle = false := by
  obtain ⟨l, msg, attrs, h⟩ := readErrorLog_slog a e
  rw [h]
  rfl

theorem adjacent_of_not_read (env : Env) (a b : Event) (ha : a.isRead = false)
    (hb : b.isRead = false) : Adjacent env a b := by
  refine ⟨fun h => ?_, fun n e h => ?_⟩
  · rw [hb] at h
    exact absurd h (by simp)
  · subst h
    exact absurd ha (by simp [Event.isRead])

theorem chain_of_no_read (env : Env) (l : List Event) (h : ∀ x ∈ l, x.isRead = false) :
    List.Chain' (Adjacent env) l :=
  List.Pairwise.chain'
    (List.pairwise_of_forall_mem_list (fun a ha b hb => adjacent_of_not_read env a b (h a ha) (h b hb)))

theorem chain_cons_of_not_read (env : Env) (x : Event) (l : List Event) (hx : x.isRead = false)
    (hh : ∀ y ∈ l.head?, y.isRead = false) (hl : List.Chain' (Adjacent env) l) :
    List.Chain' (Adjacent env) (x :: l) :=
  List.chain'_cons'.mpr ⟨fun y hy => adjacent_of_not_read env x y hx (hh y hy), hl⟩

/-- Iterations that do not end the loop, followed by effects that do not start
with a `Read`, keep every `Read` between its `SetReadDeadline` and its `WriteRecord`. -/
theorem chain_goodIters_append (env : Env) (t : Int) (rest : List Event)
    (hrest : List.Chain' (Adjacent env) rest) (hhead : ∀ y ∈ rest.head?, y.isRead = false) :
    ∀ (m k : Nat), List.Chain' (Adjacent env) (goodIters env t k m ++ rest) ∧
      ∀ y ∈ (goodIters env t k m ++ rest).head?, y.isRead = false := by
  intro m
  induction m with
  | zero => intro k; exact ⟨hrest, hhead⟩
  | succ m ih =>
    intro k
    obtain ⟨hc, hh⟩ := ih (k + 1)
    constructor
    · simp only [goodIters, iterEvents, WriteRecord, List.cons_append, List.nil_append,
        List.append_assoc]
      refine List.chain'_cons.mpr ⟨⟨fun _ => ⟨_, rfl⟩, fun n e h => ?_⟩, ?_⟩
      · cases h
      refine List.chain'_cons.mpr ⟨⟨fun h => ?_, fun n e h => ?_⟩, ?_⟩
      · exact absurd h (by simp [Event.isRead])
      · cases h
        exact ⟨_, rfl, rfl⟩
      · refine chain_cons_of_not_read env _ _ rfl (fun y hy => ?_) ?_
        · simp only [List.head?_cons, Option.mem_def, Option.some.injEq] at hy
          subst hy
          rfl
        · exact chain_cons_of_not_read env _ _ rfl hh hc
    · intro y hy
      simp only [goodIters, iterEvents, List.cons_append, List.head?_cons, Option.mem_def,
        Option.some.injEq] at hy
      subst hy
      rfl

/-- In every session a `Read` comes right after a successful `SetReadDeadline`
and is followed at once by its `WriteRecord`. -/
theorem chain_session (env : Env) (readTimeout : Int) (fuel : Nat) :
    List.Chain' (Adjacent env) (handleTCPConnection env readTimeout fuel).1 := by
  have hhead : ∀ rest : List Event, List.Chain' (Adjacent env) rest →
      (∀ y ∈ rest.head?, y.isRead = false) →
      List.Chain' (Adjacent env) (sessionHead env readTimeout ++ rest) := by
    intro rest hc hh
    simp only [sessionHead, prologue, List.cons_append, List.nil_append]
    refine chain_cons_of_not_read env _ _ rfl (by simp [Event.isRead]) ?_
    refine chain_cons_of_not_read env _ _ rfl (by simp [Event.isRead]) ?_
    refine chain_cons_of_not_read env _ _ rfl (by simp [Event.isRead]) ?_
    exact chain_cons_of_not_read env _ _ rfl hh hc
  rcases session_shape env readTimeout fuel with
    ⟨err, _, h⟩ | ⟨_, m, _, _, ⟨_, h⟩ | ⟨_, err, _, h⟩ | ⟨_, _, e, _, h⟩⟩
  · rw [h]
    apply chain_of_no_read
    intro x hx
    simp only [prologue, firstDeadlineFailure, deferred, List.cons_append, List.nil_append,
      List.mem_cons, List.mem_singleton, List.not_mem_nil, or_false] at hx
    rcases hx with rfl | rfl | rfl | rfl | rfl | rfl | rfl <;> rfl
  · rw [h]
    have := chain_goodIters_append env readTimeout [] List.chain'_nil (by simp) m 0
    rw [List.append_nil] at this
    exact hhead _ this.1 this.2
  · rw [h]
    have hrest : ∀ x ∈ loopDeadlineFailure env readTimeout m err ++ deferred,
        x.isRead = false := by
      intro x hx
      simp only [loopDeadlineFailure, deferred, List.cons_append, List.nil_append,
        List.mem_cons, List.mem_singleton, List.not_mem_nil, or_false] at hx
      rcases hx with rfl | rfl | rfl | rfl <;> rfl
    have := chain_goodIters_append env readTimeout _ (chain_of_no_read env _ hrest)
      (fun y hy => hrest y (List.mem_of_mem_head? hy)) m 0
    simp only [List.append_assoc]
    exact hhead _ this.1 this.2
  · rw [h]
    have hrest : ∀ x ∈ [readErrorLog env.remoteAddr e, closingLog env.remoteAddr] ++ deferred,
        x.isRead = false := by
      intro x hx
      simp only [deferred, closingLog, List.cons_append, List.nil_append,
        List.mem_cons, List.mem_singleton, List.not_mem_nil, or_false] at hx
      rcases hx with rfl | rfl | rfl | rfl
      · exact isRead_readErrorLog _ _
      · rfl
      · rfl
      · rfl
    have := chain_goodIters_append env readTimeout _ (chain_of_no_read env _ hrest)
      (fun y hy => hrest y (List.mem_of_mem_head? hy)) (m + 1) 0
    rw [goodIters_succ_right, Nat.zero_add] at this
    simp only [List.append_assoc] at this ⊢
    exact hhead _ this.1 this.2

/-- How many `Read` and `SetReadDeadline` calls a session has made, by the way it
stopped. -/
theorem session_counts (env : Env) (readTimeout : Int) (fuel : Nat) :
    ((handleTCPConnection env readTimeout fuel).2 = Exit.returnedBeforeLoop ∧
      env.deadline 0 ≠ none ∧
      (readCalls (handleTCPConnection env readTimeout fuel).1).length = 0 ∧
      (deadlineCalls (handleTCPConnection env readTimeout fuel).1).length = 1) ∨
    (env.deadline 0 = none ∧ ∃ m,
      (∀ i, i < m → env.deadline (i + 1) = none ∧ (env.reads i).err = none) ∧
      (((handleTCPConnection env readTimeout fuel).2 = Exit.running ∧ m = fuel ∧
          (readCalls (handleTCPConnection env readTimeout fuel).1).length = m ∧
          (deadlineCalls (handleTCPConnection env readTimeout fuel).1).length = m + 1) ∨
       ((handleTCPConnection env readTimeout fuel).2 = Exit.returnedInLoop ∧ m < fuel ∧
          env.deadline (m + 1) ≠ none ∧
          (readCalls (handleTCPConnection env readTimeout fuel).1).length = m ∧
          (deadlineCalls (handleTCPConnection env readTimeout fuel).1).length = m + 2) ∨
       ((handleTCPConnection env readTimeout fuel).2 = Exit.brokeOnReadError ∧ m < fuel ∧
          env.deadline (m + 1) = none ∧ (env.reads m).err ≠ none ∧
          (readCalls (handleTCPConnection env readTimeout fuel).1).length = m + 1 ∧
          (deadlineCalls (handleTCPConnection env readTimeout fuel).1).length = m + 2))) := by
  rcases session_shape env readTimeout fuel with
    ⟨err, h0, h⟩ | ⟨h0, m, _, hgood, ⟨hm, h⟩ | ⟨hm, err, hbad, h⟩ | ⟨hm, hok, e, hbad, h⟩⟩
  · left
    refine ⟨by rw [h], by rw [h0]; simp, ?_, ?_⟩
    · rw [h]
      simp only [readCalls_append, readCalls_prologue, readCalls_firstDeadlineFailure,
        readCalls_deferred, List.append_nil, List.length_nil]
    · rw [h]
      simp only [deadlineCalls_append, deadlineCalls_prologue,
        deadlineCalls_firstDeadlineFailure, deadlineCalls_deferred, List.append_nil,
        List.nil_append, List.length_singleton]
  · right
    refine ⟨h0, m, hgood, Or.inl ⟨by rw [h], hm, ?_, ?_⟩⟩
    · rw [h]
      simp only [readCalls_append, readCalls_sessionHead, readCalls_goodIters,
        List.nil_append, List.length_map, List.length_range]
    · rw [h]
      simp only [deadlineCalls_append, deadlineCalls_sessionHead, deadlineCalls_goodIters,
        List.length_append, List.length_singleton, List.length_map, List.length_range]
      omega
  · right
    refine ⟨h0, m, hgood, Or.inr (Or.inl ⟨by rw [h], hm, by rw [hbad]; simp, ?_, ?_⟩)⟩
    · rw [h]
      simp only [readCalls_append, readCalls_sessionHead, readCalls_goodIters,
        readCalls_loopDeadlineFailure, readCalls_deferred, List.nil_append, List.append_nil,
        List.length_map, List.length_range]
    · rw [h]
      simp only [deadlineCalls_append, deadlineCalls_sessionHead, deadlineCalls_goodIters,
        deadlineCalls_loopDeadlineFailure, deadlineCalls_deferred, List.append_nil,
        List.length_append, List.length_singleton, List.length_map, List.length_range]
      omega
  · right
    refine ⟨h0, m, hgood,
      Or.inr (Or.inr ⟨by rw [h], hm, hok, by rw [hbad]; simp, ?_, ?_⟩)⟩
    · rw [h]
      simp only [readCalls_append, readCalls_sessionHead, readCalls_goodIters,
        readCalls_iterEvents, readCalls_epilogue, readCalls_deferred, List.nil_append,
        List.append_nil, List.length_append, List.length_singleton, List.length_map,
        List.length_range]
    · rw [h]
      simp only [deadlineCalls_append, deadlineCalls_sessionHead, deadlineCalls_goodIters,
        deadlineCalls_iterEvents, deadlineCalls_epilogue, deadlineCalls_deferred,
        List.append_nil, List.length_append, List.length_singleton, List.length_map,
        List.length_range]
      omega

/-- A session has stopped exactly when one of its calls has failed. -/
theorem exit_ne_running_iff (env : Env) (readTimeout : Int) (fuel : Nat) :
    (handleTCPConnection env readTimeout fuel).2 ≠ Exit.running ↔ failsWithin env fuel = true := by
  have hfw : failsWithin env fuel = true ↔
      env.deadline 0 ≠ none ∨
        ∃ k, k < fuel ∧ (env.deadline (k + 1) ≠ none ∨ (env.reads k).err ≠ none) := by
    simp only [failsWithin, Bool.or_eq_true, List.any_eq_true, List.mem_range,
      Option.isSome_iff_ne_none]
  rw [hfw]
  rcases session_counts env readTimeout fuel with
    ⟨hx, h0, _, _⟩ | ⟨h0, m, hgood, ⟨hx, hm, _, _⟩ | ⟨hx, hm, hbad, _, _⟩ |
      ⟨hx, hm, _, hbad, _, _⟩⟩
  · rw [hx]
    exact ⟨fun _ => Or.inl h0, fun _ => by simp⟩
  · rw [hx]
    constructor
    · intro h
      exact absurd rfl h
    · rintro (h | ⟨k, hk, h | h⟩)
      · exact absurd h0 h
      · exact absurd (hgood k (by omega)).1 h
      · exact absurd (hgood k (by omega)).2 h
  · rw [hx]
    exact ⟨fun _ => Or.inr ⟨m, hm, Or.inl hbad⟩, fun _ => by simp⟩
  · rw [hx]
    exact ⟨fun _ => Or.inr ⟨m, hm, Or.inr hbad⟩, fun _ => by simp⟩

/-- The i-th `SetReadDeadline` call of a session is handed the i-th clock reading
plus the read timeout, and returns what the environment answers to it. -/
theorem deadlineCalls_session (env : Env) (readTimeout : Int) (fuel : Nat) :
    deadlineCalls (handleTCPConnection env readTimeout fuel).1 =
      (List.range (deadlineCalls (handleTCPConnection env readTimeout fuel).1).length).map
        (fun i => (env.now i + readTimeout, env.deadline i)) := by
  have hcons : ∀ m : Nat,
      (List.range (m + 1)).map (fun i => (env.now i + readTimeout, env.deadline i)) =
      (env.now 0 + readTimeout, env.deadline 0) ::
        (List.range m).map (fun i => (env.now (i + 1) + readTimeout, env.deadline (i + 1))) := by
    intro m
    rw [List.range_succ_eq_map, List.map_cons, List.map_map]
    rfl
  have hgoodmap : ∀ m : Nat,
      (∀ i, i < m → env.deadline (i + 1) = none ∧ (env.reads i).err = none) →
      (List.range m).map (fun i => (env.now (0 + i + 1) + readTimeout, (none : Option GoError))) =
      (List.range m).map (fun i => (env.now (i + 1) + readTimeout, env.deadline (i + 1))) := by
    intro m hgood
    apply List.map_congr_left
    intro i hi
    rw [(hgood i (List.mem_range.mp hi)).1, Nat.zero_add]
  rcases session_shape env readTimeout fuel with
    ⟨err, h0, h⟩ | ⟨h0, m, _, hgood, ⟨_, h⟩ | ⟨_, err, hbad, h⟩ | ⟨_, hok, e, _, h⟩⟩
  · rw [h]
    simp only [deadlineCalls_append, deadlineCalls_prologue,
      deadlineCalls_firstDeadlineFailure, deadlineCalls_deferred, List.nil_append,
      List.append_nil, List.length_singleton]
    rw [hcons 0, h0]
    rfl
  · rw [h]
    simp only [deadlineCalls_append, deadlineCalls_sessionHead, deadlineCalls_goodIters,
      List.length_append, List.length_singleton, List.length_map, List.length_range]
    rw [Nat.add_comm 1 m, hcons, h0, hgoodmap m hgood]
    rfl
  · rw [h]
    simp only [deadlineCalls_append, deadlineCalls_sessionHead, deadlineCalls_goodIters,
      deadlineCalls_loopDeadlineFailure, deadlineCalls_deferred, List.append_nil,
      List.length_append, List.length_singleton, List.length_map, List.length_range]
    rw [Nat.add_comm 1 m, List.range_succ, List.map_append, hcons, h0, hgoodmap m hgood]
    simp only [List.map_cons, List.map_nil, hbad]
    rfl
  · rw [h]
    simp only [deadlineCalls_append, deadlineCalls_sessionHead, deadlineCalls_goodIters,
      deadlineCalls_iterEvents, deadlineCalls_epilogue, deadlineCalls_deferred,
      List.append_nil, List.length_append, List.length_singleton, List.length_map,
      List.length_range]
    rw [Nat.add_comm 1 m, List.range_succ, List.map_append, hcons, h0, hgoodmap m hgood]
    simp only [List.map_cons, List.map_nil, hok]
    rfl

theorem mem_iterEvents (env : Env) (t : Int) (k : Nat) (ev : Event)
    (h : ev ∈ iterEvents env t k) :
    ev = Event.connSetReadDeadline (env.now (k + 1) + t) none ∨
    ev = Event.connRead (env.reads k).returned.length (env.reads k).err ∨
    ev = Event.writeRecord env.remoteAddr (env.reads k).returned ∨
    ∃ attrs, ev = Event.slog Level.info "Received TLS ClientHello record" attrs := by
  simp only [iterEvents, WriteRecord, List.cons_append, List.nil_append, List.mem_cons,
    List.mem_singleton, List.not_mem_nil, or_false] at h
  rcases h with h | h | h | h
  · exact Or.inl h
  · exact Or.inr (Or.inl h)
  · exact Or.inr (Or.inr (Or.inl h))
  · exact Or.inr (Or.inr (Or.inr ⟨_, h⟩))

theorem goodIters_not_lifecycle (env : Env) (t : Int) (m k : Nat) (ev : Event)
    (h : ev ∈ goodIters env t k m) : ev.isLifecycle = false := by
  refine forall_goodIters env t (fun ev => ev.isLifecycle = false) ?_ m k ev h
  intro k ev hev
  rcases mem_iterEvents env t k ev hev with rfl | rfl | rfl | ⟨_, rfl⟩ <;> rfl

theorem goodIters_not_failedDeadline (env : Env) (t : Int) (m k : Nat) (ev : Event)
    (h : ev ∈ goodIters env t k m) : ev.isFailedDeadline = false := by
  refine forall_goodIters env t (fun ev => ev.isFailedDeadline = false) ?_ m k ev h
  intro k ev hev
  rcases mem_iterEvents env t k ev hev with rfl | rfl | rfl | ⟨_, rfl⟩ <;> rfl

theorem goodIters_not_write (env : Env) (t : Int) (m k : Nat) (ev : Event)
    (h : ev ∈ goodIters env t k m) : ∀ d, ev ≠ Event.connWrite d := by
  refine forall_goodIters env t (fun ev => ∀ d, ev ≠ Event.connWrite d) ?_ m k ev h
  intro k ev hev d
  rcases mem_iterEvents env t k ev hev with rfl | rfl | rfl | ⟨_, rfl⟩ <;> simp

theorem filter_lifecycle_goodIters (env : Env) (t : Int) (m k : Nat) :
    (goodIters env t k m).filter Event.isLifecycle = [] := by
  rw [List.filter_eq_nil_iff]
  intro ev hev
  rw [goodIters_not_lifecycle env t m k ev hev]
  simp

theorem filter_lifecycle_iterEvents (env : Env) (t : Int) (k : Nat) :
    (iterEvents env t k).filter Event.isLifecycle = [] := by
  have := filter_lifecycle_goodIters env t 1 k
  simpa [goodIters] using this

/-- The life cycle of a session: it registers once, and once it has stopped it has
closed its connection once and then deregistered once. -/
theorem lifecycle_session (env : Env) (readTimeout : Int) (fuel : Nat) :
    (handleTCPConnection env readTimeout fuel).1.filter Event.isLifecycle =
      if (handleTCPConnection env readTimeout fuel).2 = Exit.running then [Event.wgAdd 1]
      else [Event.wgAdd 1, Event.connClose, Event.wgDone] := by
  have hhead : (sessionHead env readTimeout).filter Event.isLifecycle = [Event.wgAdd 1] := rfl
  have hpro : (prologue env).filter Event.isLifecycle = [Event.wgAdd 1] := rfl
  have hdef : deferred.filter Event.isLifecycle = [Event.connClose, Event.wgDone] := rfl
  rcases session_shape env readTimeout fuel with
    ⟨err, _, h⟩ | ⟨_, m, _, _, ⟨_, h⟩ | ⟨_, err, _, h⟩ | ⟨_, _, e, _, h⟩⟩
  · rw [h]
    have hfail : (firstDeadlineFailure env readTimeout err).filter Event.isLifecycle = [] := rfl
    simp only [List.filter_append, hpro, hfail, hdef, List.append_nil]
    rfl
  · rw [h]
    simp only [List.filter_append, hhead, filter_lifecycle_goodIters, List.append_nil]
    rfl
  · rw [h]
    have hfail : (loopDeadlineFailure env readTimeout m err).filter Event.isLifecycle = [] := rfl
    simp only [List.filter_append, hhead, hfail, hdef, filter_lifecycle_goodIters,
      List.append_nil]
    rfl
  · rw [h]
    have hepi : [readErrorLog env.remoteAddr e, closingLog env.remoteAddr].filter
        Event.isLifecycle = [] := by
      rw [List.filter_cons, isLifecycle_readErrorLog]
      rfl
    simp only [List.filter_append, hhead, hepi, hdef, filter_lifecycle_goodIters,
      filter_lifecycle_iterEvents, List.append_nil]
    rfl

/-- A session that has stopped ends with the two deferred calls. -/
theorem session_ends_with_deferred (env : Env) (readTimeout : Int) (fuel : Nat)
    (h : (handleTCPConnection env readTimeout fuel).2 ≠ Exit.running) :
    ∃ body, (handleTCPConnection env readTimeout fuel).1 =
      body ++ [Event.connClose, Event.wgDone] := by
  rcases session_shape env readTimeout fuel with
    ⟨err, _, hs⟩ | ⟨_, m, _, _, ⟨_, hs⟩ | ⟨_, err, _, hs⟩ | ⟨_, _, e, _, hs⟩⟩
  · exact ⟨_, by rw [hs]; rfl⟩
  · rw [hs] at h
    exact absurd rfl h
  · exact ⟨_, by rw [hs]; rfl⟩
  · exact ⟨_, by rw [hs]; rfl⟩

/-- The first effect of a session is its registration with the wait group. -/
theorem session_head (env : Env) (readTimeout : Int) (fuel : Nat) :
    (handleTCPConnection env readTimeout fuel).1.head? = some (Event.wgAdd 1) := by
  rcases session_shape env readTimeout fuel with
    ⟨err, _, hs⟩ | ⟨_, m, _, _, ⟨_, hs⟩ | ⟨_, err, _, hs⟩ | ⟨_, _, e, _, hs⟩⟩ <;>
  rw [hs] <;> rfl

/-- A session never calls `Write` on its connection. -/
theorem session_no_write (env : Env) (readTimeout : Int) (fuel : Nat) (d : List Byte) :
    Event.connWrite d ∉ (handleTCPConnection env readTimeout fuel).1 := by
  have hhead : Event.connWrite d ∉ sessionHead env readTimeout := by
    simp [sessionHead, prologue]
  have hgood : ∀ m k, Event.connWrite d ∉ goodIters env readTimeout k m :=
    fun m k hm => goodIters_not_write env readTimeout m k _ hm d rfl
  have hiter : ∀ k, Event.connWrite d ∉ iterEvents env readTimeout k := by
    intro k hk
    have := hgood 1 k
    simp only [goodIters, List.append_nil] at this
    exact this hk
  have hdef : Event.connWrite d ∉ deferred := by simp [deferred]
  rcases session_shape env readTimeout fuel with
    ⟨err, _, hs⟩ | ⟨_, m, _, _, ⟨_, hs⟩ | ⟨_, err, _, hs⟩ | ⟨_, _, e, _, hs⟩⟩
  · rw [hs]
    simp [prologue, firstDeadlineFailure, deferred]
  · rw [hs]
    simp only [List.mem_append, not_or]
    exact ⟨hhead, hgood m 0⟩
  · rw [hs]
    simp only [List.mem_append, not_or]
    exact ⟨⟨⟨hhead, hgood m 0⟩, by simp [loopDeadlineFailure]⟩, hdef⟩
  · rw [hs]
    simp only [List.mem_append, not_or]
    refine ⟨⟨⟨⟨hhead, hgood m 0⟩, hiter m⟩, ?_⟩, hdef⟩
    obtain ⟨l, msg, attrs, hl⟩ := readErrorLog_slog env.remoteAddr e
    simp [hl, closingLog]

/-- After a `SetReadDeadline` call that failed, a session makes no `Read` call. -/
theorem session_no_read_after_failure (env : Env) (readTimeout : Int) (fuel : Nat) :
    List.Pairwise (fun a b => a.isFailedDeadline = true → b.isRead = false)
      (handleTCPConnection env readTimeout fuel).1 := by
  have hclean : ∀ l : List Event, (∀ a ∈ l, a.isFailedDeadline = false) →
      List.Pairwise (fun a b => a.isFailedDeadline = true → b.isRead = false) l := by
    intro l hl
    apply List.pairwise_of_forall_mem_list
    intro a ha b _ hfa
    rw [hl a ha] at hfa
    exact absurd hfa (by simp)
  have hquiet : ∀ l : List Event, (∀ b ∈ l, b.isRead = false) →
      List.Pairwise (fun a b => a.isFailedDeadline = true → b.isRead = false) l := by
    intro l hl
    apply List.pairwise_of_forall_mem_list
    intro a _ b hb _
    exact hl b hb
  have hhead : ∀ a ∈ sessionHead env readTimeout, a.isFailedDeadline = false := by
    intro a ha
    simp only [sessionHead, prologue, List.cons_append, List.nil_append, List.mem_cons,
      List.mem_singleton, List.not_mem_nil, or_false] at ha
    rcases ha with rfl | rfl | rfl | rfl <;> rfl
  rcases session_shape env readTimeout fuel with
    ⟨err, _, hs⟩ | ⟨_, m, _, _, ⟨_, hs⟩ | ⟨_, err, _, hs⟩ | ⟨_, _, e, _, hs⟩⟩
  · rw [hs]
    apply hquiet
    intro b hb
    simp only [prologue, firstDeadlineFailure, deferred, List.cons_append, List.nil_append,
      List.mem_cons, List.mem_singleton, List.not_mem_nil, or_false] at hb
    rcases hb with rfl | rfl | rfl | rfl | rfl | rfl | rfl <;> rfl
  · rw [hs]
    apply hclean
    intro a ha
    rcases List.mem_append.mp ha with ha | ha
    · exact hhead a ha
    · exact goodIters_not_failedDeadline env readTimeout m 0 a ha
  · rw [hs, List.append_assoc]
    have htail : ∀ b ∈ loopDeadlineFailure env readTimeout m err ++ deferred,
        b.isRead = false := by
      intro b hb
      simp only [loopDeadlineFailure, deferred, List.cons_append, List.nil_append,
        List.mem_cons, List.mem_singleton, List.not_mem_nil, or_false] at hb
      rcases hb with rfl | rfl | rfl | rfl <;> rfl
    have hbody : ∀ a ∈ sessionHead env readTimeout ++ goodIters env readTimeout 0 m,
        a.isFailedDeadline = false := by
      intro a ha
      rcases List.mem_append.mp ha with ha | ha
      · exact hhead a ha
      · exact goodIters_not_failedDeadline env readTimeout m 0 a ha
    refine List.pairwise_append.mpr ⟨hclean _ hbody, hquiet _ htail, ?_⟩
    intro a ha b _ hfa
    rw [hbody a ha] at hfa
    exact absurd hfa (by simp)
  · rw [hs]
    apply hclean
    intro a ha
    simp only [List.mem_append] at ha
    rcases ha with (((ha | ha) | ha) | ha) | ha
    · exact hhead a ha
    · exact goodIters_not_failedDeadline env readTimeout m 0 a ha
    · have : a ∈ goodIters env readTimeout m 1 := by
        simpa [goodIters] using ha
      exact goodIters_not_failedDeadline env readTimeout 1 m a this
    · simp only [List.mem_cons, List.mem_singleton, List.not_mem_nil, or_false] at ha
      rcases ha with rfl | rfl
      · exact isFailedDeadline_readErrorLog _ _
      · rfl
    · simp only [deferred, List.mem_cons, List.mem_singleton, List.not_mem_nil, or_false] at ha
      rcases ha with rfl | rfl <;> rfl

theorem goodIters_add (env : Env) (t : Int) :
    ∀ (a b k : Nat), goodIters env t k (a + b) =
      goodIters env t k a ++ goodIters env t (k + a) b := by
  intro a
  induction a with
  | zero => intro b k; simp [goodIters]
  | succ a ih =>
    intro b k
    rw [show a + 1 + b = (a + b) + 1 by omega, goodIters, goodIters, ih b (k + 1),
      List.append_assoc]
    congr 3
    omega

/-- A trace is some effects without a `Read`, then the iterations that got as far
as their `Read`, then again effects without a `Read`. -/
theorem session_decomp (env : Env) (readTimeout : Int) (fuel : Nat) :
    ∃ pre M rest, (handleTCPConnection env readTimeout fuel).1 =
        pre ++ goodIters env readTimeout 0 M ++ rest ∧
      readCalls pre = [] ∧ readCalls rest = [] := by
  rcases session_shape env readTimeout fuel with
    ⟨err, _, h⟩ | ⟨_, m, _, _, ⟨_, h⟩ | ⟨_, err, _, h⟩ | ⟨_, _, e, _, h⟩⟩
  · refine ⟨prologue env ++ firstDeadlineFailure env readTimeout err ++ deferred, 0, [], ?_, ?_,
      rfl⟩
    · rw [h]
      simp [goodIters]
    · simp only [readCalls_append, readCalls_prologue, readCalls_firstDeadlineFailure,
        readCalls_deferred, List.append_nil]
  · exact ⟨sessionHead env readTimeout, m, [], by rw [h, List.append_nil],
      readCalls_sessionHead env readTimeout, rfl⟩
  · refine ⟨sessionHead env readTimeout, m, loopDeadlineFailure env readTimeout m err ++ deferred,
      by rw [h, List.append_assoc], readCalls_sessionHead env readTimeout, ?_⟩
    simp only [readCalls_append, readCalls_loopDeadlineFailure, readCalls_deferred,
      List.append_nil]
  · refine ⟨sessionHead env readTimeout, m + 1,
      [readErrorLog env.remoteAddr e, closingLog env.remoteAddr] ++ deferred, ?_,
      readCalls_sessionHead env readTimeout, ?_⟩
    · rw [h, goodIters_succ_right, Nat.zero_add]
      simp only [List.append_assoc]
    · simp only [readCalls_append, readCalls_epilogue, readCalls_deferred, List.append_nil]

/-- Where the j-th `Read` of a session stands in its trace: right after the
`SetReadDeadline` call armed with the clock reading taken for that iteration, which
succeeded, and right before the `WriteRecord` call that carries the bytes it
returned. -/
theorem session_read_position (env : Env) (readTimeout : Int) (fuel : Nat) (j : Nat)
    (hj : j < (readCalls (handleTCPConnection env readTimeout fuel).1).length) :
    ∃ l₁ l₂, (handleTCPConnection env readTimeout fuel).1 =
        l₁ ++ Event.connSetReadDeadline (env.now (j + 1) + readTimeout) none ::
          Event.connRead (env.reads j).returned.length (env.reads j).err ::
          Event.writeRecord env.remoteAddr (env.reads j).returned :: l₂ ∧
      (readCalls l₁).length = j := by
  obtain ⟨pre, M, rest, h, hpre, hrest⟩ := session_decomp env readTimeout fuel
  rw [h] at hj ⊢
  simp only [readCalls_append, hpre, hrest, readCalls_goodIters, List.nil_append,
    List.append_nil, List.length_map, List.length_range] at hj
  have hM : M = j + (1 + (M - j - 1)) := by omega
  rw [hM, goodIters_add, goodIters_add]
  refine ⟨pre ++ goodIters env readTimeout 0 j,
    Event.slog Level.info "Received TLS ClientHello record"
      [ Attr.str "remote_addr" env.remoteAddr,
        Attr.str "data_hex" (hexEncodeToString (env.reads j).returned),
        Attr.int "raw_data_len" ((env.reads j).returned.length : Int) ] ::
      (goodIters env readTimeout (0 + j + 1) (M - j - 1) ++ rest), ?_, ?_⟩
  · simp only [goodIters, iterEvents, WriteRecord, List.append_assoc, List.cons_append,
      List.nil_append, List.append_nil, Nat.zero_add]
  · simp only [readCalls_append, hpre, readCalls_goodIters, List.nil_append, List.length_map,
      List.length_range]

/-! ## Sessions whose first failing call is known -/

theorem returned_of_le (r : ReadResult) (h : r.data.length ≤ bufferSize) :
    r.returned = r.data :=
  List.take_of_length_le h

theorem returned_length_le (r : ReadResult) : r.returned.length ≤ bufferSize := by
  simp only [ReadResult.returned, List.length_take]
  exact Nat.min_le_left _ _

/-- A session whose first failing call is the `Read` of iteration `N`. -/
theorem session_readError (env : Env) (readTimeout : Int) (N : Nat) (e : GoError) (fuel : Nat)
    (hd : ∀ i, i ≤ N + 1 → env.deadline i = none)
    (hr : ∀ i, i < N → (env.reads i).err = none)
    (he : (env.reads N).err = some e) (hf : N < fuel) :
    handleTCPConnection env readTimeout fuel =
      (sessionHead env readTimeout ++ goodIters env readTimeout 0 N ++
         iterEvents env readTimeout N ++
         [readErrorLog env.remoteAddr e, closingLog env.remoteAddr] ++ deferred,
       Exit.brokeOnReadError) := by
  rcases session_shape env readTimeout fuel with
    ⟨err, h0, _⟩ | ⟨_, m, _, hgood, ⟨hm, _⟩ | ⟨_, err, hbad, _⟩ | ⟨_, _, e', hbad, h⟩⟩
  · rw [hd 0 (Nat.zero_le _)] at h0
    exact absurd h0 (by simp)
  · have := (hgood N (by omega)).2
    rw [he] at this
    exact absurd this (by simp)
  · have hmN : m ≤ N := by
      by_contra hlt
      have := (hgood N (by omega)).2
      rw [he] at this
      exact absurd this (by simp)
    rw [hd (m + 1) (by omega)] at hbad
    exact absurd hbad (by simp)
  · have hmN : m = N := by
      rcases Nat.lt_trichotomy m N with hlt | heq | hgt
      · rw [hr m hlt] at hbad
        exact absurd hbad (by simp)
      · exact heq
      · have := (hgood N hgt).2
        rw [he] at this
        exact absurd this (by simp)
    subst hmN
    rw [he] at hbad
    cases hbad
    exact h

/-- A session whose first failing call is the `SetReadDeadline` of iteration `N`. -/
theorem session_loopDeadlineFailure (env : Env) (readTimeout : Int) (N : Nat) (e : GoError)
    (fuel : Nat)
    (hd : ∀ i, i ≤ N → env.deadline i = none)
    (hr : ∀ i, i < N → (env.reads i).err = none)
    (he : env.deadline (N + 1) = some e) (hf : N < fuel) :
    handleTCPConnection env readTimeout fuel =
      (sessionHead env readTimeout ++ goodIters env readTimeout 0 N ++
         loopDeadlineFailure env readTimeout N e ++ deferred,
       Exit.returnedInLoop) := by
  rcases session_shape env readTimeout fuel with
    ⟨err, h0, _⟩ | ⟨_, m, _, hgood, ⟨hm, _⟩ | ⟨_, err, hbad, h⟩ | ⟨_, hok, e', hbad, _⟩⟩
  · rw [hd 0 (Nat.zero_le _)] at h0
    exact absurd h0 (by simp)
  · have := (hgood N (by omega)).1
    rw [he] at this
    exact absurd this (by simp)
  · have hmN : m = N := by
      rcases Nat.lt_trichotomy m N with hlt | heq | hgt
      · rw [hd (m + 1) (by omega)] at hbad
        exact absurd hbad (by simp)
      · exact heq
      · have := (hgood N hgt).1
        rw [he] at this
        exact absurd this (by simp)
    subst hmN
    rw [he] at hbad
    cases hbad
    exact h
  · have hmN : m < N := by
      by_contra hge
      rcases Nat.lt_or_ge N m with hlt | hle
      · have := (hgood N hlt).1
        rw [he] at this
        exact absurd this (by simp)
      · have hmeq : m = N := by omega
        subst hmeq
        rw [he] at hok
        exact absurd hok (by simp)
    rw [hr m hmN] at hbad
    exact absurd hbad (by simp)

/-- A session whose first `SetReadDeadline` call fails. -/
theorem session_firstDeadlineFailure (env : Env) (readTimeout : Int) (e : GoError) (fuel : Nat)
    (he : env.deadline 0 = some e) :
    handleTCPConnection env readTimeout fuel =
      (prologue env ++ firstDeadlineFailure env readTimeout e ++ deferred,
       Exit.returnedBeforeLoop) := by
  simp only [handleTCPConnection, he]

/-! ## C1 and C2: what is handed to the record logger -/

/-- C1, as stated, fails: in the scenario "send AB, then stay silent" the peer's
data arrives as one successful read of two bytes followed by a terminal read that
returns a timeout with no bytes, yet the logger is called twice, the second time
with an empty payload. -/
theorem c1_counterexample :
    (∀ i, envAB.deadline i = none) ∧
    (envAB.reads 0).err = none ∧ (envAB.reads 0).returned = [0x41, 0x42] ∧
    (envAB.reads 1).err = some timeoutErr ∧ (envAB.reads 1).returned = [] ∧
    (handleTCPConnection envAB 15000000000 2).2 = Exit.brokeOnReadError ∧
    records (handleTCPConnection envAB 15000000000 2).1 =
      [("198.51.100.7:4242", [0x41, 0x42]), ("198.51.100.7:4242", [])] ∧
    (records (handleTCPConnection envAB 15000000000 2).1).length ≠ 1 := by
  have h := session_readError envAB 15000000000 1 timeoutErr 2 (fun _ _ => rfl)
    (fun i hi => by
      have : i = 0 := by omega
      subst this
      rfl)
    rfl (by decide)
  have r0 : (envAB.reads 0).returned = [0x41, 0x42] := returned_of_le _ (by decide)
  have r1 : (envAB.reads 1).returned = [] := returned_of_le _ (by decide)
  have hrec : records (handleTCPConnection envAB 15000000000 2).1 =
      [("198.51.100.7:4242", [0x41, 0x42]), ("198.51.100.7:4242", [])] := by
    rw [h]
    simp only [records_append, records_sessionHead, records_goodIters, records_iterEvents,
      records_epilogue, records_deferred, List.nil_append, List.append_nil, Nat.zero_add]
    rw [r1]
    simp only [show List.range 1 = [0] from rfl, List.map_cons, List.map_nil, r0]
    rfl
  refine ⟨fun _ => rfl, rfl, r0, rfl, r1, by rw [h], hrec, ?_⟩
  rw [hrec]
  decide

/-- The scenario "send X, send Y, close" yields three records, the last one empty. -/
theorem records_envXY :
    records (handleTCPConnection envXY 15000000000 3).1 =
      [("198.51.100.7:4242", [0x58]), ("198.51.100.7:4242", [0x59]),
       ("198.51.100.7:4242", [])] := by
  have h := session_readError envXY 15000000000 2 GoError.eof 3 (fun _ _ => rfl)
    (fun i hi => by
      rcases Nat.lt_or_ge i 1 with h1 | h1
      · have : i = 0 := by omega
        subst this
        rfl
      · have : i = 1 := by omega
        subst this
        rfl)
    rfl (by decide)
  have r0 : (envXY.reads 0).returned = [0x58] := returned_of_le _ (by decide)
  have r1 : (envXY.reads 1).returned = [0x59] := returned_of_le _ (by decide)
  have r2 : (envXY.reads 2).returned = [] := returned_of_le _ (by decide)
  rw [h]
  simp only [records_append, records_sessionHead, records_goodIters, records_iterEvents,
    records_epilogue, records_deferred, List.nil_append, List.append_nil, Nat.zero_add]
  rw [r2]
  simp only [show List.range 2 = [0, 1] from rfl, List.map_cons, List.map_nil, r0, r1]
  rfl

/-- C1, amended: when the peer's data arrives as N reads that each return at least
one byte and no error, followed by a terminal read that returns an error and no
bytes, the session ends and the logger has been called exactly N + 1 times: once
per read in order with the bytes of that read, the terminal read included, whose
record has an empty payload; exactly N of the records have a non-empty payload. -/
theorem c1_records_per_read (env : Env) (readTimeout : Int) (N : Nat) (e : GoError)
    (fuel : Nat)
    (hd : ∀ i, i ≤ N + 1 → env.deadline i = none)
    (hr : ∀ i, i < N → (env.reads i).err = none ∧ 0 < (env.reads i).returned.length)
    (he : (env.reads N).err = some e) (h0 : (env.reads N).returned = [])
    (hf : N < fuel) :
    (handleTCPConnection env readTimeout fuel).2 = Exit.brokeOnReadError ∧
    records (handleTCPConnection env readTimeout fuel).1 =
      (List.range N).map (fun i => (env.remoteAddr, (env.reads i).returned)) ++
        [(env.remoteAddr, [])] ∧
    (records (handleTCPConnection env readTimeout fuel).1).length = N + 1 ∧
    ((records (handleTCPConnection env readTimeout fuel).1).filter
      (fun p => decide (p.2 ≠ []))).length = N := by
  have h := session_readError env readTimeout N e fuel hd (fun i hi => (hr i hi).1) he hf
  have hrec : records (handleTCPConnection env readTimeout fuel).1 =
      (List.range N).map (fun i => (env.remoteAddr, (env.reads i).returned)) ++
        [(env.remoteAddr, [])] := by
    rw [h]
    simp only [records_append, records_sessionHead, records_goodIters, records_iterEvents,
      records_epilogue, records_deferred, List.nil_append, List.append_nil, Nat.zero_add, h0]
  refine ⟨by rw [h], hrec, by rw [hrec]; simp, ?_⟩
  rw [hrec, List.filter_append]
  have hall : ((List.range N).map (fun i => (env.remoteAddr, (env.reads i).returned))).filter
      (fun p => decide (p.2 ≠ [])) =
      (List.range N).map (fun i => (env.remoteAddr, (env.reads i).returned)) := by
    rw [List.filter_eq_self]
    intro p hp
    rw [List.mem_map] at hp
    obtain ⟨i, hi, rfl⟩ := hp
    have := (hr i (List.mem_range.mp hi)).2
    simp only [ne_eq, decide_not, Bool.not_eq_true', decide_eq_false_iff_not]
    intro hnil
    rw [hnil] at this
    exact absurd this (by simp)
  rw [hall]
  simp

/-- The scenario "send AB, then stay silent" is an instance of the amended C1. -/
theorem c1_records_per_read_witness :
    (handleTCPConnection envAB 15000000000 2).2 = Exit.brokeOnReadError ∧
    records (handleTCPConnection envAB 15000000000 2).1 =
      (List.range 1).map (fun i => (envAB.remoteAddr, (envAB.reads i).returned)) ++
        [(envAB.remoteAddr, [])] ∧
    (records (handleTCPConnection envAB 15000000000 2).1).length = 1 + 1 ∧
    ((records (handleTCPConnection envAB 15000000000 2).1).filter
      (fun p => decide (p.2 ≠ []))).length = 1 :=
  c1_records_per_read envAB 15000000000 1 timeoutErr 2 (fun _ _ => rfl)
    (fun i hi => by
      have : i = 0 := by omega
      subst this
      exact ⟨rfl, by rw [returned_of_le _ (by decide)]; decide⟩)
    rfl (returned_of_le _ (by decide)) (by decide)

/-- C2: in every session, observed for any number of iterations, the `Read` calls
return what the environment hands over cut to the buffer length (so 0 <= n <= 4096),
the first n bytes of the buffer after a read are exactly the bytes that read
returned whatever the buffer held before, every `WriteRecord` call carries the
connection's remote address and exactly the bytes returned by the corresponding
read, in the order of the reads, and so the concatenation of the logged payloads
is the concatenation of the bytes the reads returned. -/
theorem c2_payload_is_bytes_read (env : Env) (readTimeout : Int) (fuel : Nat) :
    (∀ (r : ReadResult) (buffer : List Byte), buffer.length = bufferSize →
      (connRead r buffer).1 = r.returned.length ∧ (connRead r buffer).1 ≤ 4096 ∧
      (connRead r buffer).2.take (connRead r buffer).1 = r.returned) ∧
    readCalls (handleTCPConnection env readTimeout fuel).1 =
      (List.range (readCalls (handleTCPConnection env readTimeout fuel).1).length).map
        (fun j => ((env.reads j).returned.length, (env.reads j).err)) ∧
    records (handleTCPConnection env readTimeout fuel).1 =
      (List.range (readCalls (handleTCPConnection env readTimeout fuel).1).length).map
        (fun j => (env.remoteAddr, (env.reads j).returned)) ∧
    ((records (handleTCPConnection env readTimeout fuel).1).map Prod.snd).flatten =
      ((List.range (readCalls (handleTCPConnection env readTimeout fuel).1).length).map
        (fun j => (env.reads j).returned)).flatten := by
  refine ⟨?_, readCalls_session env readTimeout fuel, records_session env readTimeout fuel, ?_⟩
  · intro r buffer hb
    refine ⟨connRead_fst r buffer hb, ?_, ?_⟩
    · rw [connRead_fst r buffer hb]
      exact returned_length_le r
    · rw [connRead_fst r buffer hb]
      exact connRead_payload r buffer hb
  · rw [records_session env readTimeout fuel, List.map_map]
    rfl

/-! ## C3 and C8: the life cycle of a session -/

/-- C3: whatever the deadline-setting and read calls return, the first effect of a
session is its one registration `wg.Add(1)`, so it precedes every read; the session
has stopped exactly when one of its calls has failed (both early returns included),
and then it has closed its connection exactly once and called `wg.Done` exactly
once, the close right before the deregistration, as its last two effects; a
session that has not stopped has done neither. -/
theorem c3_lifecycle_exactly_once (env : Env) (readTimeout : Int) (fuel : Nat) :
    (handleTCPConnection env readTimeout fuel).1.head? = some (Event.wgAdd 1) ∧
    (∀ l₁ n e l₂, (handleTCPConnection env readTimeout fuel).1 =
        l₁ ++ Event.connRead n e :: l₂ → Event.wgAdd 1 ∈ l₁) ∧
    ((handleTCPConnection env readTimeout fuel).2 ≠ Exit.running ↔
      failsWithin env fuel = true) ∧
    ((handleTCPConnection env readTimeout fuel).1.filter Event.isLifecycle =
      if (handleTCPConnection env readTimeout fuel).2 = Exit.running then [Event.wgAdd 1]
      else [Event.wgAdd 1, Event.connClose, Event.wgDone]) ∧
    ((handleTCPConnection env readTimeout fuel).2 ≠ Exit.running →
      ∃ body, (handleTCPConnection env readTimeout fuel).1 =
        body ++ [Event.connClose, Event.wgDone]) := by
  refine ⟨session_head env readTimeout fuel, ?_, exit_ne_running_iff env readTimeout fuel,
    lifecycle_session env readTimeout fuel, session_ends_with_deferred env readTimeout fuel⟩
  intro l₁ n e l₂ h
  have hh := session_head env readTimeout fuel
  rw [h] at hh
  cases l₁ with
  | nil => simp at hh
  | cons a l =>
    simp only [List.cons_append, List.head?_cons, Option.some.injEq] at hh
    rw [hh]
    exact List.mem_cons_self _ _

/-- C8, as stated, fails: when the first `SetReadDeadline` call fails the session
closes its connection and deregisters, but returns without logging the final
closure message. -/
theorem c8_counterexample :
    failsWithin envNoDeadline 3 = true ∧
    (handleTCPConnection envNoDeadline 15000000000 3).2 = Exit.returnedBeforeLoop ∧
    Event.connClose ∈ (handleTCPConnection envNoDeadline 15000000000 3).1 ∧
    Event.wgDone ∈ (handleTCPConnection envNoDeadline 15000000000 3).1 ∧
    closingLog envNoDeadline.remoteAddr ∉ (handleTCPConnection envNoDeadline 15000000000 3).1 ∧
    (∀ l attrs, Event.slog l "Closing connection." attrs ∉
      (handleTCPConnection envNoDeadline 15000000000 3).1) := by
  have h := session_firstDeadlineFailure envNoDeadline 15000000000 (GoError.other 9) 3 rfl
  rw [h]
  refine ⟨rfl, rfl, ?_, ?_, ?_, ?_⟩
  · simp [prologue, firstDeadlineFailure, deferred]
  · simp [prologue, firstDeadlineFailure, deferred]
  · simp [prologue, firstDeadlineFailure, deferred, closingLog]
  · intro l attrs
    simp [prologue, firstDeadlineFailure, deferred]

/-- C8, amended: whatever call fails first (a read, or a `SetReadDeadline` before or
inside the loop), the session stops, closes its connection and decrements the wait
group; when the failing call is a read it also logs the final closure message. -/
theorem c8_cleanup_on_every_exit (env : Env) (readTimeout : Int) (fuel : Nat)
    (h : failsWithin env fuel = true) :
    (handleTCPConnection env readTimeout fuel).2 ≠ Exit.running ∧
    Event.connClose ∈ (handleTCPConnection env readTimeout fuel).1 ∧
    Event.wgDone ∈ (handleTCPConnection env readTimeout fuel).1 ∧
    ((∃ k e, k < fuel ∧ (∀ i, i ≤ k + 1 → env.deadline i = none) ∧
        (∀ i, i < k → (env.reads i).err = none) ∧ (env.reads k).err = some e) →
      closingLog env.remoteAddr ∈ (handleTCPConnection env readTimeout fuel).1) := by
  have hx := (exit_ne_running_iff env readTimeout fuel).mpr h
  obtain ⟨body, hb⟩ := session_ends_with_deferred env readTimeout fuel hx
  refine ⟨hx, by rw [hb]; simp, by rw [hb]; simp, ?_⟩
  rintro ⟨k, e, hk, hd, hr, he⟩
  rw [session_readError env readTimeout k e fuel hd hr he hk]
  simp

/-- The scenario "send AB, then stay silent" is an instance of the amended C8. -/
theorem c8_cleanup_on_every_exit_witness :
    (handleTCPConnection envAB 15000000000 2).2 ≠ Exit.running ∧
    Event.connClose ∈ (handleTCPConnection envAB 15000000000 2).1 ∧
    Event.wgDone ∈ (handleTCPConnection envAB 15000000000 2).1 ∧
    ((∃ k e, k < 2 ∧ (∀ i, i ≤ k + 1 → envAB.deadline i = none) ∧
        (∀ i, i < k → (envAB.reads i).err = none) ∧ (envAB.reads k).err = some e) →
      closingLog envAB.remoteAddr ∈ (handleTCPConnection envAB 15000000000 2).1) :=
  c8_cleanup_on_every_exit envAB 15000000000 2 (by decide)

/-! ## C5: how a read error ends the session -/

theorem isOutcome_readErrorLog (a : String) (e : GoError) :
    (readErrorLog a e).isOutcome = true := by
  unfold readErrorLog timeoutLog eofLog readFailureLog
  split_ifs <;> rfl

theorem filter_outcome_goodIters (env : Env) (t : Int) (m k : Nat) :
    (goodIters env t k m).filter Event.isOutcome = [] := by
  rw [List.filter_eq_nil_iff]
  intro ev hev
  have : ev.isOutcome = false := by
    refine forall_goodIters env t (fun ev => ev.isOutcome = false) ?_ m k ev hev
    intro k ev hev
    rcases mem_iterEvents env t k ev hev with rfl | rfl | rfl | ⟨_, rfl⟩ <;> rfl
  rw [this]
  simp

/-- How many `SetReadDeadline` calls a session has made once a read has returned
without an error: the loop has gone on to re-arm the deadline. -/
theorem session_continues (env : Env) (readTimeout : Int) (fuel : Nat) (j : Nat)
    (hj : j < (readCalls (handleTCPConnection env readTimeout fuel).1).length)
    (he : (env.reads j).err = none) (hf : j + 1 < fuel) :
    j + 3 ≤ (deadlineCalls (handleTCPConnection env readTimeout fuel).1).length := by
  rcases session_counts env readTimeout fuel with
    ⟨_, _, hr, _⟩ | ⟨_, m, hgood, ⟨_, hm, hr, hdl⟩ | ⟨_, _, _, hr, hdl⟩ |
      ⟨_, _, _, hbad, hr, hdl⟩⟩
  · omega
  · omega
  · omega
  · have hne : j ≠ m := by
      intro hjm
      rw [hjm] at he
      exact hbad he
    omega

/-- A read that returns an error is the last read of its session, which ends by
leaving the loop. -/
theorem session_stops (env : Env) (readTimeout : Int) (fuel : Nat) (j : Nat) (e : GoError)
    (hj : j < (readCalls (handleTCPConnection env readTimeout fuel).1).length)
    (he : (env.reads j).err = some e) :
    (readCalls (handleTCPConnection env readTimeout fuel).1).length = j + 1 ∧
    (handleTCPConnection env readTimeout fuel).2 = Exit.brokeOnReadError := by
  have hgoodj : ∀ m, (∀ i, i < m → env.deadline (i + 1) = none ∧ (env.reads i).err = none) →
      ¬ j < m := by
    intro m hgood hjm
    have := (hgood j hjm).2
    rw [he] at this
    exact absurd this (by simp)
  rcases session_counts env readTimeout fuel with
    ⟨_, _, hr, _⟩ | ⟨_, m, hgood, ⟨_, hm, hr, hdl⟩ | ⟨_, _, _, hr, hdl⟩ |
      ⟨hx, _, _, hbad, hr, hdl⟩⟩
  · omega
  · have := hgoodj m hgood
    omega
  · have := hgoodj m hgood
    omega
  · have := hgoodj m hgood
    exact ⟨by omega, hx⟩

/-- C5: the first read that returns an error ends the session: the trace is the
iterations before it, that iteration up to its `WriteRecord`, one outcome line, the
final closure line, the close of the connection and the deregistration, so no
deadline is set and nothing is read after it; the outcome line is the timeout line
when the error is a `net.Error` whose `Timeout()` is true, the end-of-stream line
when it is `io.EOF`, the error line otherwise, and it is the only outcome line of
the trace.  A read that returns no error does not end the loop: the session goes
on to set the next deadline. -/
theorem c5_read_error_ends_session (env : Env) (readTimeout : Int) (fuel : Nat) :
    (∀ k e, (∀ i, i ≤ k + 1 → env.deadline i = none) →
      (∀ i, i < k → (env.reads i).err = none) → (env.reads k).err = some e → k < fuel →
      handleTCPConnection env readTimeout fuel =
        (sessionHead env readTimeout ++ goodIters env readTimeout 0 k ++
           iterEvents env readTimeout k ++
           [readErrorLog env.remoteAddr e, closingLog env.remoteAddr, Event.connClose,
            Event.wgDone],
         Exit.brokeOnReadError) ∧
      (readCalls (handleTCPConnection env readTimeout fuel).1).length = k + 1 ∧
      (deadlineCalls (handleTCPConnection env readTimeout fuel).1).length = k + 2 ∧
      (handleTCPConnection env readTimeout fuel).1.filter Event.isOutcome =
        [readErrorLog env.remoteAddr e]) ∧
    (∀ (a : String) (e : GoError),
      (e.asNetError = some true → readErrorLog a e = timeoutLog a) ∧
      (e = GoError.eof → readErrorLog a e = eofLog a) ∧
      (e.asNetError ≠ some true → e ≠ GoError.eof → readErrorLog a e = readFailureLog a e)) ∧
    (∀ j, j < (readCalls (handleTCPConnection env readTimeout fuel).1).length →
      (env.reads j).err = none → j + 1 < fuel →
      j + 3 ≤ (deadlineCalls (handleTCPConnection env readTimeout fuel).1).length) := by
  refine ⟨?_, ?_, fun j hj he hf => session_continues env readTimeout fuel j hj he hf⟩
  · intro k e hd hr he hk
    have h := session_readError env readTimeout k e fuel hd hr he hk
    have hiter : (iterEvents env readTimeout k).filter Event.isOutcome = [] := by
      have := filter_outcome_goodIters env readTimeout 1 k
      simpa [goodIters] using this
    refine ⟨by rw [h]; simp [deferred], ?_, ?_, ?_⟩
    · rw [h]
      simp only [readCalls_append, readCalls_sessionHead, readCalls_goodIters,
        readCalls_iterEvents, readCalls_epilogue, readCalls_deferred, List.nil_append,
        List.append_nil, List.length_append, List.length_singleton, List.length_map,
        List.length_range]
    · rw [h]
      simp only [deadlineCalls_append, deadlineCalls_sessionHead, deadlineCalls_goodIters,
        deadlineCalls_iterEvents, deadlineCalls_epilogue, deadlineCalls_deferred,
        List.append_nil, List.length_append, List.length_singleton, List.length_map,
        List.length_range]
      omega
    · rw [h]
      have hhead : (sessionHead env readTimeout).filter Event.isOutcome = [] := rfl
      have hdef : deferred.filter Event.isOutcome = [] := rfl
      have hepi : [readErrorLog env.remoteAddr e, closingLog env.remoteAddr].filter
          Event.isOutcome = [readErrorLog env.remoteAddr e] := by
        rw [List.filter_cons, isOutcome_readErrorLog]
        rfl
      simp only [List.filter_append, hhead, hdef, hepi, hiter, filter_outcome_goodIters,
        List.nil_append, List.append_nil]
  · intro a e
    refine ⟨fun h => ?_, fun h => ?_, fun h₁ h₂ => ?_⟩
    · simp [readErrorLog, h]
    · subst h
      simp [readErrorLog, GoError.asNetError]
    · simp [readErrorLog, h₁, h₂]

/-- The scenario "send AB, then stay silent": the timeout of the second read ends
the session with the timeout line. -/
theorem c5_read_error_ends_session_witness :
    handleTCPConnection envAB 15000000000 2 =
        (sessionHead envAB 15000000000 ++ goodIters envAB 15000000000 0 1 ++
           iterEvents envAB 15000000000 1 ++
           [readErrorLog envAB.remoteAddr timeoutErr, closingLog envAB.remoteAddr,
            Event.connClose, Event.wgDone],
         Exit.brokeOnReadError) ∧
      (readCalls (handleTCPConnection envAB 15000000000 2).1).length = 1 + 1 ∧
      (deadlineCalls (handleTCPConnection envAB 15000000000 2).1).length = 1 + 2 ∧
      (handleTCPConnection envAB 15000000000 2).1.filter Event.isOutcome =
        [readErrorLog envAB.remoteAddr timeoutErr] :=
  (c5_read_error_ends_session envAB 15000000000 2).1 1 timeoutErr (fun _ _ => rfl)
    (fun i hi => by
      have : i = 0 := by omega
      subst this
      rfl)
    rfl (by decide)

/-! ## C9 and C10: what surrounds each read -/

theorem session_getLast (env : Env) (readTimeout : Int) (fuel : Nat) (n : Nat)
    (e : Option GoError) :
    (handleTCPConnection env readTimeout fuel).1.getLast? ≠ some (Event.connRead n e) := by
  rcases session_shape env readTimeout fuel with
    ⟨err, _, h⟩ | ⟨_, m, _, _, ⟨_, h⟩ | ⟨_, err, _, h⟩ | ⟨_, _, e', _, h⟩⟩
  · rw [h]
    simp [deferred]
  · rw [h]
    cases m with
    | zero => simp [goodIters, sessionHead, prologue]
    | succ m =>
      rw [goodIters_succ_right]
      simp [iterEvents, WriteRecord]
  · rw [h]
    simp [deferred]
  · rw [h]
    simp [deferred]

/-- C9: in every session every read stands right after a `SetReadDeadline` call
that succeeded; the i-th `SetReadDeadline` call is handed the clock reading taken
for it plus the read timeout, so each read has a deadline armed afresh; the j-th
read stands right after call j + 1, which succeeded; once a `SetReadDeadline` call
has failed no read follows; and the session never writes to the connection. -/
theorem c9_deadline_before_each_read (env : Env) (readTimeout : Int) (fuel : Nat) :
    List.Chain' (fun a b => b.isRead = true → ∃ d, a = Event.connSetReadDeadline d none)
      (handleTCPConnection env readTimeout fuel).1 ∧
    (∀ n e, (handleTCPConnection env readTimeout fuel).1.head? ≠ some (Event.connRead n e)) ∧
    deadlineCalls (handleTCPConnection env readTimeout fuel).1 =
      (List.range (deadlineCalls (handleTCPConnection env readTimeout fuel).1).length).map
        (fun i => (env.now i + readTimeout, env.deadline i)) ∧
    (∀ j, j < (readCalls (handleTCPConnection env readTimeout fuel).1).length →
      ∃ l₁ l₂, (handleTCPConnection env readTimeout fuel).1 =
          l₁ ++ Event.connSetReadDeadline (env.now (j + 1) + readTimeout) none ::
            Event.connRead (env.reads j).returned.length (env.reads j).err :: l₂ ∧
        (readCalls l₁).length = j) ∧
    List.Pairwise (fun a b => a.isFailedDeadline = true → b.isRead = false)
      (handleTCPConnection env readTimeout fuel).1 ∧
    (∀ d, Event.connWrite d ∉ (handleTCPConnection env readTimeout fuel).1) := by
  refine ⟨?_, ?_, deadlineCalls_session env readTimeout fuel, ?_,
    session_no_read_after_failure env readTimeout fuel,
    fun d => session_no_write env readTimeout fuel d⟩
  · exact (chain_session env readTimeout fuel).imp (fun _ _ h => h.1)
  · intro n e h
    rw [session_head env readTimeout fuel] at h
    cases h
  · intro j hj
    obtain ⟨l₁, l₂, h, hl⟩ := session_read_position env readTimeout fuel j hj
    exact ⟨l₁, _, h, hl⟩

/-- C10: in every session the number of `WriteRecord` calls is the number of reads
performed: every read is followed at once by a `WriteRecord` call whose payload has
the n bytes the read returned, before the error is looked at; so a read that
returns an error still yields its record (empty when n = 0), is the last read and
the session leaves the loop, and a read that returns no error yields its record,
empty when it returned no bytes, and the loop goes on to set the next deadline. -/
theorem c10_record_per_read (env : Env) (readTimeout : Int) (fuel : Nat) :
    (records (handleTCPConnection env readTimeout fuel).1).length =
      (readCalls (handleTCPConnection env readTimeout fuel).1).length ∧
    List.Chain' (fun a b => ∀ n e, a = Event.connRead n e →
        ∃ d, b = Event.writeRecord env.remoteAddr d ∧ d.length = n)
      (handleTCPConnection env readTimeout fuel).1 ∧
    (∀ n e, (handleTCPConnection env readTimeout fuel).1.getLast? ≠
      some (Event.connRead n e)) ∧
    (∀ j, j < (readCalls (handleTCPConnection env readTimeout fuel).1).length →
      ∃ l₁ l₂, (handleTCPConnection env readTimeout fuel).1 =
          l₁ ++ Event.connRead (env.reads j).returned.length (env.reads j).err ::
            Event.writeRecord env.remoteAddr (env.reads j).returned :: l₂ ∧
        (readCalls l₁).length = j) ∧
    (∀ j e, j < (readCalls (handleTCPConnection env readTimeout fuel).1).length →
      (env.reads j).err = some e →
      (readCalls (handleTCPConnection env readTimeout fuel).1).length = j + 1 ∧
      (handleTCPConnection env readTimeout fuel).2 = Exit.brokeOnReadError) ∧
    (∀ j, j < (readCalls (handleTCPConnection env readTimeout fuel).1).length →
      (env.reads j).err = none → j + 1 < fuel →
      j + 3 ≤ (deadlineCalls (handleTCPConnection env readTimeout fuel).1).length) := by
  refine ⟨?_, ?_, fun n e => session_getLast env readTimeout fuel n e, ?_,
    fun j e hj he => session_stops env readTimeout fuel j e hj he,
    fun j hj he hf => session_continues env readTimeout fuel j hj he hf⟩
  · rw [records_session env readTimeout fuel]
    simp
  · exact (chain_session env readTimeout fuel).imp (fun _ _ h => h.2)
  · intro j hj
    obtain ⟨l₁, l₂, h, hl⟩ := session_read_position env readTimeout fuel j hj
    refine ⟨l₁ ++ [Event.connSetReadDeadline (env.now (j + 1) + readTimeout) none], l₂, ?_, ?_⟩
    · rw [h]
      simp
    · rw [readCalls_append, List.length_append, hl]
      rfl

/-! ## C6: the accept loop -/

theorem acceptIterations_spec (results : List AcceptResult) :
    spawned (acceptIterations results).1 =
      (results.takeWhile (fun r => !r.isClosed)).filterMap AcceptResult.conn? ∧
    acceptCalls (acceptIterations results).1 =
      results.take ((results.takeWhile (fun r => !r.isClosed)).length + 1) ∧
    ((acceptIterations results).2 = true ↔ ∃ r ∈ results, r.isClosed = true) ∧
    (∀ e, MainEvent.listenerClose e ∉ (acceptIterations results).1) := by
  induction results with
  | nil => simp [acceptIterations, spawned, acceptCalls]
  | cons r rest ih =>
    obtain ⟨ih1, ih2, ih3, ih4⟩ := ih
    cases r with
    | conn c =>
      refine ⟨?_, ?_, ?_, ?_⟩
      · simp only [acceptIterations, spawned, List.filterMap_cons, AcceptResult.isClosed,
          Bool.not_false, List.takeWhile_cons_of_pos, AcceptResult.conn?]
        exact congrArg _ ih1
      · simp only [acceptIterations, acceptCalls, List.filterMap_cons, AcceptResult.isClosed,
          Bool.not_false, List.takeWhile_cons_of_pos, List.length_cons, List.take_succ_cons]
        exact congrArg _ ih2
      · simp only [acceptIterations, ih3, List.mem_cons, exists_eq_or_imp,
          AcceptResult.isClosed, Bool.false_eq_true, false_or]
      · intro e
        simp only [acceptIterations, List.mem_cons, not_or]
        exact ⟨by simp, by simp, ih4 e⟩
    | fail err =>
      by_cases hc : errorsIs err GoError.errClosed = true
      · refine ⟨?_, ?_, ?_, ?_⟩
        · simp [acceptIterations, hc, spawned, AcceptResult.isClosed]
        · simp [acceptIterations, hc, acceptCalls, AcceptResult.isClosed]
        · simp [acceptIterations, hc, AcceptResult.isClosed]
        · intro e
          simp [acceptIterations, hc]
      · refine ⟨?_, ?_, ?_, ?_⟩
        · simp only [acceptIterations, hc, if_false, spawned, List.filterMap_cons,
            AcceptResult.isClosed, Bool.not_eq_true, Bool.not_eq_true', Bool.false_eq_true,
            List.takeWhile_cons, AcceptResult.conn?]
          simp only [Bool.not_eq_true] at hc
          simp only [hc, Bool.not_false, if_true, List.filterMap_cons, AcceptResult.conn?]
          exact ih1
        · simp only [Bool.not_eq_true] at hc
          simp only [acceptIterations, hc, Bool.false_eq_true, if_false, acceptCalls,
            List.filterMap_cons, AcceptResult.isClosed, List.takeWhile_cons, Bool.not_false,
            if_true, List.length_cons, List.take_succ_cons]
          exact congrArg _ ih2
        · simp only [Bool.not_eq_true] at hc
          simp only [acceptIterations, hc, Bool.false_eq_true, if_false, ih3, List.mem_cons,
            exists_eq_or_imp, AcceptResult.isClosed, false_or]
        · intro e
          simp only [Bool.not_eq_true] at hc
          simp only [acceptIterations, hc, Bool.false_eq_true, if_false, List.mem_cons, not_or]
          exact ⟨by simp, by simp, ih4 e⟩

theorem conn_of_accepted (results : List AcceptResult) :
    (results.takeWhile (fun r => !r.isClosed)).filterMap AcceptResult.conn? =
      (results.take ((results.takeWhile (fun r => !r.isClosed)).length + 1)).filterMap
        AcceptResult.conn? := by
  induction results with
  | nil => rfl
  | cons r rest ih =>
    by_cases hc : r.isClosed = true
    · have htw : (r :: rest).takeWhile (fun r => !r.isClosed) = [] := by
        simp [List.takeWhile_cons, hc]
      rw [htw]
      cases r with
      | conn c => simp [AcceptResult.isClosed] at hc
      | fail err => rfl
    · have htw : (r :: rest).takeWhile (fun r => !r.isClosed) =
          r :: rest.takeWhile (fun r => !r.isClosed) := by
        simp [List.takeWhile_cons, hc]
      rw [htw]
      simp only [List.length_cons, List.take_succ_cons, List.filterMap_cons]
      rw [ih]

/-- C6: for every finite sequence of results of `listener.Accept`, the accept loop
spawns exactly the connections of the successful accepts that come before the
first failure that is `net.ErrClosed`, in order; the `Accept` calls it makes are
the results up to and including that failure, so a failure that is not
`net.ErrClosed` spawns nothing and does not stop the loop and nothing is accepted
after the failure that is; and the loop returns exactly when such a failure occurs. -/
theorem c6_accept_loop (results : List AcceptResult) :
    spawned (acceptLoop results).1 =
      (results.takeWhile (fun r => !r.isClosed)).filterMap AcceptResult.conn? ∧
    acceptCalls (acceptLoop results).1 =
      results.take ((results.takeWhile (fun r => !r.isClosed)).length + 1) ∧
    spawned (acceptLoop results).1 =
      (acceptCalls (acceptLoop results).1).filterMap AcceptResult.conn? ∧
    ((acceptLoop results).2 = true ↔ ∃ r ∈ results, r.isClosed = true) := by
  obtain ⟨h1, h2, h3, _⟩ := acceptIterations_spec results
  have hs : spawned (acceptLoop results).1 = spawned (acceptIterations results).1 := rfl
  have ha : acceptCalls (acceptLoop results).1 = acceptCalls (acceptIterations results).1 := rfl
  refine ⟨hs.trans h1, ha.trans h2, ?_, h3⟩
  rw [hs, ha, h1, h2]
  exact conn_of_accepted results

/-! ## C7: the calls of `listener.Close` -/

theorem closeCalls_mainStartup (listenAddr boundAddr : String) :
    closeCalls (mainStartup listenAddr boundAddr) = [] := rfl

theorem closeCalls_mainShutdown (sig : String) (closeErr : Option GoError) :
    closeCalls (mainShutdown sig closeErr) = [closeErr] := by
  cases closeErr <;> rfl

/-- C7, as stated, fails: on the normal shutdown path `main` calls
`listener.Close` twice, at line 60 and again through the `defer` of line 28 when
it returns. -/
theorem c7_counterexample :
    (main ":60443" "[::]:60443" none (some "interrupt") none true
      (some (GoError.opError false GoError.errClosed))).2 = MainOutcome.returned ∧
    closeCalls (main ":60443" "[::]:60443" none (some "interrupt") none true
      (some (GoError.opError false GoError.errClosed))).1 =
        [none, some (GoError.opError false GoError.errClosed)] ∧
    (closeCalls (main ":60443" "[::]:60443" none (some "interrupt") none true
      (some (GoError.opError false GoError.errClosed))).1).length ≠ 1 := by
  refine ⟨rfl, rfl, ?_⟩
  show ([none, some (GoError.opError false GoError.errClosed)] :
    List (Option GoError)).length ≠ 1
  decide

/-- C7, amended: when the listening socket is created, on the normal shutdown path
(signal received, listener closed, drain waited for, `main` returns) `main` calls
`listener.Close` exactly twice, once before `wg.Wait` and once, deferred, as its
last effect; while it waits for the signal it has not called it, while it waits
for the drain it has called it once; the accept loop never calls it; and when the
socket cannot be created the process exits with status 1 without starting the
accept loop, accepting a connection or calling `listener.Close`. -/
theorem c7_listener_close_calls (listenAddr boundAddr : String) :
    (∀ (sig : String) (closeErr deferredErr : Option GoError),
      main listenAddr boundAddr none (some sig) closeErr true deferredErr =
        (mainStartup listenAddr boundAddr ++ mainShutdown sig closeErr ++
           [ MainEvent.slog Level.info "All connections finished. Shutdown complete." [],
             MainEvent.listenerClose deferredErr ],
         MainOutcome.returned) ∧
      closeCalls (main listenAddr boundAddr none (some sig) closeErr true deferredErr).1 =
        [closeErr, deferredErr] ∧
      (mainShutdown sig closeErr).getLast? = some MainEvent.wgWait ∧
      closeCalls (main listenAddr boundAddr none (some sig) closeErr false deferredErr).1 =
        [closeErr]) ∧
    (∀ (closeErr deferredErr : Option GoError) (drained : Bool),
      closeCalls (main listenAddr boundAddr none none closeErr drained deferredErr).1 = []) ∧
    (∀ (results : List AcceptResult) (e : Option GoError),
      MainEvent.listenerClose e ∉ (acceptLoop results).1) ∧
    (∀ (err : GoError) (sig : Option String) (closeErr deferredErr : Option GoError)
        (drained : Bool),
      (main listenAddr boundAddr (some err) sig closeErr drained deferredErr).2 =
        MainOutcome.exited 1 ∧
      MainEvent.goAcceptLoop ∉
        (main listenAddr boundAddr (some err) sig closeErr drained deferredErr).1 ∧
      acceptCalls (main listenAddr boundAddr (some err) sig closeErr drained deferredErr).1 =
        [] ∧
      closeCalls (main listenAddr boundAddr (some err) sig closeErr drained deferredErr).1 =
        []) := by
  refine ⟨?_, ?_, ?_, ?_⟩
  · intro sig closeErr deferredErr
    refine ⟨rfl, ?_, ?_, ?_⟩
    · show closeCalls (mainStartup listenAddr boundAddr ++ mainShutdown sig closeErr ++
        [ MainEvent.slog Level.info "All connections finished. Shutdown complete." [],
          MainEvent.listenerClose deferredErr ]) = [closeErr, deferredErr]
      unfold closeCalls
      rw [List.filterMap_append, List.filterMap_append]
      have h1 := closeCalls_mainStartup listenAddr boundAddr
      have h2 := closeCalls_mainShutdown sig closeErr
      unfold closeCalls at h1 h2
      rw [h1, h2]
      rfl
    · cases closeErr <;> rfl
    · show closeCalls (mainStartup listenAddr boundAddr ++ mainShutdown sig closeErr) =
        [closeErr]
      unfold closeCalls
      rw [List.filterMap_append]
      have h1 := closeCalls_mainStartup listenAddr boundAddr
      have h2 := closeCalls_mainShutdown sig closeErr
      unfold closeCalls at h1 h2
      rw [h1, h2]
      rfl
  · intro closeErr deferredErr drained
    rfl
  · intro results e
    have := (acceptIterations_spec results).2.2.2 e
    simp only [acceptLoop, List.mem_cons, not_or]
    exact ⟨by simp, this⟩
  · intro err sig closeErr deferredErr drained
    refine ⟨rfl, ?_, rfl, rfl⟩
    simp [main]

/-! ## C4: the wait of the shutdown path -/

/-- Once a session has registered, `wg.Wait()` does block: after the accept loop
has spawned the session and the session has performed its `wg.Add(1)`, `main`
receives the signal and closes the listener but cannot return from the wait. -/
theorem wait_blocks_while_registered :
    run (fun _ => envAB) 15000000000 2 (startState [AcceptResult.conn 0])
        [Thread.acceptor, Thread.session 0, Thread.main, Thread.main, Thread.main] = none := by
  have h := session_readError envAB 15000000000 1 timeoutErr 2 (fun _ _ => rfl)
    (fun i hi => by
      have : i = 0 := by omega
      subst this
      rfl)
    rfl (by decide)
  simp [run, step, startState, h, sessionHead, prologue, wgDelta]

/-- C4 fails on the code: a session registers with `wg.Add(1)` inside its own
goroutine, so this schedule is possible: the accept loop accepts a connection and
spawns its session, which has not run yet; `main` receives the signal, closes the
listener and calls `wg.Wait()`, which returns at once because the counter is still
zero; `main` goes on to its deferred close and returns, while the session, whose
connection was accepted before the listener was closed, has all its effects still
to perform, the registration and the close of its connection included, and once
`main` has returned it never performs them. -/
theorem c4_wait_returns_before_session_registers :
    run (fun _ => envAB) 15000000000 2 (startState [AcceptResult.conn 0])
        [Thread.acceptor, Thread.main, Thread.main, Thread.main] =
      some { listenerClosed := true, wg := 0, main := MainPc.deferredClose,
             acceptorDone := false, backlog := [],
             sessions := [(handleTCPConnection envAB 15000000000 2).1] } ∧
    (handleTCPConnection envAB 15000000000 2).1.head? = some (Event.wgAdd 1) ∧
    Event.connClose ∈ (handleTCPConnection envAB 15000000000 2).1 ∧
    (∃ s, run (fun _ => envAB) 15000000000 2 (startState [AcceptResult.conn 0])
        [Thread.acceptor, Thread.main, Thread.main, Thread.main, Thread.main] = some s ∧
      s.main = MainPc.returned ∧
      s.sessions = [(handleTCPConnection envAB 15000000000 2).1] ∧
      step (fun _ => envAB) 15000000000 2 s (Thread.session 0) = none) := by
  have hrun : run (fun _ => envAB) 15000000000 2 (startState [AcceptResult.conn 0])
        [Thread.acceptor, Thread.main, Thread.main, Thread.main] =
      some { listenerClosed := true, wg := 0, main := MainPc.deferredClose,
             acceptorDone := false, backlog := [],
             sessions := [(handleTCPConnection envAB 15000000000 2).1] } := by
    simp [run, step, startState]
  have hx : (handleTCPConnection envAB 15000000000 2).2 ≠ Exit.running := by
    rw [exit_ne_running_iff]
    decide
  obtain ⟨body, hb⟩ := session_ends_with_deferred envAB 15000000000 2 hx
  refine ⟨hrun, session_head envAB 15000000000 2, by rw [hb]; simp, ?_⟩
  refine ⟨{ listenerClosed := true, wg := 0, main := MainPc.returned,
            acceptorDone := false, backlog := [],
            sessions := [(handleTCPConnection envAB 15000000000 2).1] }, ?_, rfl, rfl, ?_⟩
  · simp [run, step, startState]
  · simp [step]

end IntraFragmentationTest
